import Mathlib

/-!
Verification development for the HelpNest help-desk backend
(`apps/api`): authentication/refresh rotation, tenancy and ticket
access control, and cursor pagination, shallowly embedded in Lean.

Machine integers do not occur (ids are strings, timestamps are natural
numbers of milliseconds); stateful route handlers are embedded as pure
functions from an explicit database value to a (response, database) pair.
-/

namespace HelpNest

/-! ## Data model (prisma schema) -/

inductive WorkspaceKind
  | CUSTOMER
  | SUPPORT_OPS
  deriving DecidableEq

inductive WorkspaceRole
  | ADMIN
  | MEMBER
  deriving DecidableEq

inductive TicketStatus
  | OPEN
  | PENDING
  | RESOLVED
  | CLOSED
  deriving DecidableEq

inductive TicketPriority
  | LOW
  | MEDIUM
  | HIGH
  deriving DecidableEq

structure User where
  id : String
  email : String
  passwordHash : String
  /-- Advisory `isSupportAgent` column; never consulted for authorization. -/
  isSupportAgentFlag : Bool
  deriving DecidableEq

structure Workspace where
  id : String
  name : String
  domain : Option String
  kind : WorkspaceKind
  deriving DecidableEq

structure WorkspaceMember where
  workspaceId : String
  userId : String
  role : WorkspaceRole
  deriving DecidableEq

structure Ticket where
  id : String
  workspaceId : String
  createdByUserId : String
  title : String
  status : TicketStatus
  priority : Option TicketPriority
  category : Option String
  createdAt : Nat
  updatedAt : Nat
  deriving DecidableEq

structure TicketMessage where
  id : String
  ticketId : String
  authorId : String
  content : String
  createdAt : Nat
  deriving DecidableEq

structure RefreshSession where
  id : String
  userId : String
  refreshTokenHash : String
  expiresAt : Nat
  revokedAt : Option Nat
  deriving DecidableEq

/-- The relational datastore: one list per table, in insertion order
(prisma `findFirst`/`findUnique` become `List.find?`). -/
structure DB where
  users : List User
  workspaces : List Workspace
  members : List WorkspaceMember
  tickets : List Ticket
  messages : List TicketMessage
  sessions : List RefreshSession
  deriving DecidableEq

/-! ## Query layer -/

/-- `prisma.workspace.findUnique({ where: { id } })`. -/
def DB.findWorkspace (db : DB) (workspaceId : String) : Option Workspace :=
  db.workspaces.find? (fun w => w.id == workspaceId)

/-- `prisma.workspaceMember.findUnique({ where: { workspaceId_userId } })`. -/
def DB.findMembership (db : DB) (workspaceId userId : String) : Option WorkspaceMember :=
  db.members.find? (fun m => m.workspaceId == workspaceId && m.userId == userId)

/-- `prisma.ticket.findUnique({ where: { id } })`. -/
def DB.findTicket (db : DB) (ticketId : String) : Option Ticket :=
  db.tickets.find? (fun t => t.id == ticketId)

/-- Kind of the workspace owning a ticket (the `include: { workspace: { select: { kind } } }`). -/
def DB.workspaceKindOf (db : DB) (workspaceId : String) : Option WorkspaceKind :=
  (db.findWorkspace workspaceId).map Workspace.kind

/-- `isSupportAgent` from `lib/supportAgent.ts`: a `workspaceMember.findFirst`
for (userId, role ADMIN, workspace.kind SUPPORT_OPS) returning non-null. -/
def isSupportAgent (db : DB) (userId : String) : Bool :=
  db.members.any (fun m =>
    m.userId == userId && m.role == WorkspaceRole.ADMIN &&
      db.workspaces.any (fun w => w.id == m.workspaceId && w.kind == WorkspaceKind.SUPPORT_OPS))

/-! ## Ticket access guard (`lib/ticketAccess.ts`) -/

/-- `getTicketWithAccessCheck(ticketId, userId, isSupportAgent)`.
Loads the ticket; support agents get access to tickets of CUSTOMER
workspaces; otherwise the explicit membership decides: ADMIN always,
MEMBER only when the caller created the ticket; `none` otherwise. -/
def getTicketWithAccessCheck (db : DB) (ticketId userId : String)
    (isSupportAgentArg : Bool) : Option Ticket :=
  match db.findTicket ticketId with
  | none => none
  | some ticket =>
    if isSupportAgentArg && (db.workspaceKindOf ticket.workspaceId == some WorkspaceKind.CUSTOMER) then
      some ticket
    else
      match db.findMembership ticket.workspaceId userId with
      | none => none
      | some membership =>
        if membership.role == WorkspaceRole.ADMIN then some ticket
        else if membership.role == WorkspaceRole.MEMBER && ticket.createdByUserId == userId then
          some ticket
        else none

/-- Allowed-access condition as the specification words it: elevated agent
on a CUSTOMER workspace, or ADMIN membership, or MEMBER membership plus
creatorship. Stated independently of `getTicketWithAccessCheck` for the
refinement theorem. -/
def ticketAccessAllowedSpec (db : DB) (t : Ticket) (userId : String) (agent : Bool) : Prop :=
  (agent = true ∧ db.workspaceKindOf t.workspaceId = some WorkspaceKind.CUSTOMER)
  ∨ (db.findMembership t.workspaceId userId).map WorkspaceMember.role = some WorkspaceRole.ADMIN
  ∨ ((db.findMembership t.workspaceId userId).map WorkspaceMember.role = some WorkspaceRole.MEMBER
      ∧ t.createdByUserId = userId)

instance (db : DB) (t : Ticket) (userId : String) (agent : Bool) :
    Decidable (ticketAccessAllowedSpec db t userId agent) := by
  unfold ticketAccessAllowedSpec; infer_instance

/-- Boundary response shape: an HTTP status plus error code, or a payload. -/
inductive GetTicketResponse
  | ok (t : Ticket)
  | err (status : Nat) (code : String)
  deriving DecidableEq

/-- `GET /tickets/:ticketId` from `routes/tickets.ts`: resolve elevated
status, run the access check, respond 404 NOT_FOUND when it yields null. -/
def getTicketRoute (db : DB) (ticketId userId : String) : GetTicketResponse :=
  let agent := isSupportAgent db userId
  match getTicketWithAccessCheck db ticketId userId agent with
  | none => GetTicketResponse.err 404 "NOT_FOUND"
  | some t => GetTicketResponse.ok t

/-! ## Workspace membership middleware (`middleware/workspaceAccess.ts`) -/

inductive MembershipResult
  | notFound
  | forbidden
  | ok (workspaceId : String) (role : WorkspaceRole)
  deriving DecidableEq

/-- `requireWorkspaceMember(workspaceId)`: 404 when the workspace does not
exist; support agents get synthesized ADMIN on CUSTOMER workspaces; else
the explicit membership row decides, its absence being 403. -/
def requireWorkspaceMember (db : DB) (workspaceId userId : String) : MembershipResult :=
  match db.findWorkspace workspaceId with
  | none => MembershipResult.notFound
  | some workspace =>
    if isSupportAgent db userId && (workspace.kind == WorkspaceKind.CUSTOMER) then
      MembershipResult.ok workspaceId WorkspaceRole.ADMIN
    else
      match db.findMembership workspaceId userId with
      | none => MembershipResult.forbidden
      | some m => MembershipResult.ok m.workspaceId m.role

/-! ## Reply submission (`POST /tickets/:ticketId/messages`) -/

inductive ReplyResult
  | validationError
  | replyNotFound
  | ticketClosed
  | created (m : TicketMessage)
  deriving DecidableEq

/-- `POST /tickets/:ticketId/messages`: body validation (zod: message
length 1..5000), access check, then the closed-ticket gate — a CLOSED
ticket rejects the reply with TICKET_CLOSED unless the caller is a
support agent or an ADMIN member of the ticket's workspace; otherwise a
message row is created and the ticket's `updatedAt` is bumped. -/
def postTicketMessage (db : DB) (ticketId userId content : String)
    (now : Nat) (newMessageId : String) : ReplyResult × DB :=
  let agent := isSupportAgent db userId
  if content.length < 1 || 5000 < content.length then (ReplyResult.validationError, db)
  else
    match getTicketWithAccessCheck db ticketId userId agent with
    | none => (ReplyResult.replyNotFound, db)
    | some ticket =>
      let closedBlocked :=
        ticket.status == TicketStatus.CLOSED && !agent &&
          (match db.findMembership ticket.workspaceId userId with
           | none => true
           | some m => !(m.role == WorkspaceRole.ADMIN))
      if closedBlocked then (ReplyResult.ticketClosed, db)
      else
        let msg : TicketMessage :=
          { id := newMessageId, ticketId := ticketId, authorId := userId
            content := content, createdAt := now }
        (ReplyResult.created msg,
         { db with
             messages := db.messages ++ [msg]
             tickets := db.tickets.map (fun t =>
               if t.id == ticketId then { t with updatedAt := now } else t) })

/-! ## Refresh-token rotation (`routes/auth.ts`, `POST /auth/refresh`)

`hashRefreshToken` (SHA-256 in `lib/refreshToken.ts`) is kept abstract:
the route definitions take the digest function as a parameter `hash`. -/

/-- `REFRESH_EXPIRES_MS = 7 * 24 * 60 * 60 * 1000` (7 days). -/
def REFRESH_EXPIRES_MS : Nat := 7 * 24 * 60 * 60 * 1000

inductive RefreshResponse
  | unauthorized
  | refreshed (userId : String)
  deriving DecidableEq

/-- `POST /auth/refresh`: missing cookie is 401; look up the session by
token hash; a missing, revoked, or expired session is 401 with the
database untouched; otherwise the found session is revoked and
`setAuthCookiesAndRespond` creates a brand-new session for the freshly
generated token (its plaintext and the created row id are parameters,
standing for `generateRefreshToken()` and the database-generated id). -/
def refresh (db : DB) (hash : String → String) (cookieToken : Option String)
    (now : Nat) (newToken newSessionId : String) : RefreshResponse × DB :=
  match cookieToken with
  | none => (RefreshResponse.unauthorized, db)
  | some token =>
    let h := hash token
    match db.sessions.find? (fun s => s.refreshTokenHash == h) with
    | none => (RefreshResponse.unauthorized, db)
    | some session =>
      if !(session.revokedAt == none) || session.expiresAt < now then
        (RefreshResponse.unauthorized, db)
      else
        let revoked := db.sessions.map (fun s =>
          if s.id == session.id then { s with revokedAt := some now } else s)
        let fresh : RefreshSession :=
          { id := newSessionId, userId := session.userId
            refreshTokenHash := hash newToken
            expiresAt := now + REFRESH_EXPIRES_MS, revokedAt := none }
        (RefreshResponse.refreshed session.userId,
         { db with sessions := revoked ++ [fresh] })

/-- One refresh attempt of a trace: the presented token, the request
time, and the generated token and session id used when it succeeds. -/
structure RefreshCmd where
  token : String
  now : Nat
  newToken : String
  newSessionId : String

/-- The database after a refresh attempt (failure leaves it unchanged). -/
def refreshStep (hash : String → String) (db : DB) (c : RefreshCmd) : DB :=
  (refresh db hash (some c.token) c.now c.newToken c.newSessionId).2

/-- Run a sequence of refresh attempts. -/
def runRefreshes (hash : String → String) (db : DB) (cs : List RefreshCmd) : DB :=
  cs.foldl (refreshStep hash) db

/-- Every session holding the given hash has been revoked (no live grant
for that token remains). -/
def hashDeadIn (db : DB) (h : String) : Prop :=
  ∀ s ∈ db.sessions, s.refreshTokenHash = h → s.revokedAt ≠ none

/-! ## Signup (`routes/auth.ts`, `POST /auth/signup`) -/

/-- JS `String.prototype.split` with a one-character separator. -/
def splitChar (sep : Char) : List Char → List (List Char)
  | [] => [[]]
  | c :: rest =>
    match splitChar sep rest with
    | [] => [[]]
    | h :: t => if c = sep then [] :: h :: t else (c :: h) :: t

/-- JS `String.prototype.toLowerCase` (ASCII-relevant part). -/
def lowerStr (s : String) : String := String.mk (s.data.map Char.toLower)

/-- JS `String.prototype.trim`: strip whitespace from both ends. -/
def trimChars (cs : List Char) : List Char :=
  ((cs.dropWhile Char.isWhitespace).reverse.dropWhile Char.isWhitespace).reverse

/-- `parseEmailDomain`: text after the first `@`, lowercased; null when
there is no `@` or it is the last character. -/
def parseEmailDomain (email : String) : Option String :=
  let cs := email.data
  match cs.findIdx? (fun c => c == '@') with
  | none => none
  | some at_ =>
    if at_ == cs.length - 1 then none
    else some (lowerStr (String.mk (cs.drop (at_ + 1))))

/-- `isSupportAgentDomain`: the `SUPPORT_AGENT_EMAIL_DOMAINS` env value is
split on commas, trimmed, lowercased and filtered of empties; the email's
domain must be a member. -/
def isSupportAgentDomain (supportAgentEmailDomains : String) (email : String) : Bool :=
  let domains := ((splitChar ',' supportAgentEmailDomains.data).map
    (fun d => lowerStr (String.mk (trimChars d)))).filter (fun d => !d.isEmpty)
  match parseEmailDomain email with
  | none => false
  | some domain => domains.contains domain

inductive SignupResponse
  | signupValidationError
  | emailTaken
  | signedUp (userId : String)
  deriving DecidableEq

/-- `POST /auth/signup` after schema validation of the body: reject a
duplicate email (EMAIL_TAKEN) or an email without a domain; create the
user; find the CUSTOMER workspace by the email's domain, creating it when
absent; create a MEMBER membership there; when the domain is on the
allow-list and a SUPPORT_OPS workspace exists, also create an ADMIN
membership in it; finally create a refresh session and respond 201 with
the new user id. `hashPw` stands for `bcrypt.hashSync`; the fresh row
ids, the refresh-token hash and the clock are parameters. -/
def signup (db : DB) (supportAgentEmailDomains : String) (email password : String)
    (hashPw : String → String) (newUserId newWorkspaceId newSessionId : String)
    (refreshTokenHash : String) (now : Nat) : SignupResponse × DB :=
  match db.users.find? (fun u => u.email == email) with
  | some _ => (SignupResponse.emailTaken, db)
  | none =>
    match parseEmailDomain email with
    | none => (SignupResponse.signupValidationError, db)
    | some domain =>
      let supportAgent := isSupportAgentDomain supportAgentEmailDomains email
      let user : User :=
        { id := newUserId, email := email, passwordHash := hashPw password
          isSupportAgentFlag := supportAgent }
      let db1 := { db with users := db.users ++ [user] }
      let newCustomer : Workspace :=
        { id := newWorkspaceId, name := domain, domain := some domain
          kind := WorkspaceKind.CUSTOMER }
      let found := db1.workspaces.find? (fun w => w.domain == some domain)
      let customerWorkspace : Workspace := found.getD newCustomer
      let db2 : DB :=
        match found with
        | some _ => db1
        | none => { db1 with workspaces := db1.workspaces ++ [newCustomer] }
      let memberRow : WorkspaceMember :=
        { workspaceId := customerWorkspace.id, userId := user.id
          role := WorkspaceRole.MEMBER }
      let db3 : DB := { db2 with members := db2.members ++ [memberRow] }
      let db4 : DB :=
        if supportAgent then
          match db3.workspaces.find? (fun w => w.kind == WorkspaceKind.SUPPORT_OPS) with
          | some supportOps =>
            let adminRow : WorkspaceMember :=
              { workspaceId := supportOps.id, userId := user.id
                role := WorkspaceRole.ADMIN }
            { db3 with members := db3.members ++ [adminRow] }
          | none => db3
        else db3
      let sessionRow : RefreshSession :=
        { id := newSessionId, userId := user.id
          refreshTokenHash := refreshTokenHash
          expiresAt := now + REFRESH_EXPIRES_MS, revokedAt := none }
      let db5 : DB := { db4 with sessions := db4.sessions ++ [sessionRow] }
      (SignupResponse.signedUp user.id, db5)

/-! ## Access-token signing and startup (`lib/jwt.ts`, `index.ts`) -/

/-- Process environment slice consulted by the API server. -/
structure Env where
  jwtAccessSecret : Option String
  port : Option Nat
  webOrigin : Option String
  nodeEnv : Option String
  deriving DecidableEq

/-- `ACCESS_TOKEN_TTL_SEC = 10 * 60`. -/
def ACCESS_TOKEN_TTL_SEC : Nat := 10 * 60

/-- `getSecret()` from `lib/jwt.ts`: throws unless `JWT_ACCESS_SECRET` is
set and at least 16 characters (the empty string is falsy in JS and is
covered by the length test). -/
def getSecret (env : Env) : Except String String :=
  match env.jwtAccessSecret with
  | none => Except.error "JWT_ACCESS_SECRET must be set and at least 16 chars"
  | some secret =>
    if secret.length < 16 then
      Except.error "JWT_ACCESS_SECRET must be set and at least 16 chars"
    else Except.ok secret

/-- Shape of a signed HS256 access token (`jwt.sign` output). -/
structure AccessToken where
  sub : String
  expiresInSec : Nat
  signingSecret : String
  deriving DecidableEq

/-- `createAccessToken(userId)`: resolves the secret (throwing per call
when it is missing or short) and signs `{ sub: userId }`. -/
def createAccessToken (env : Env) (userId : String) : Except String AccessToken :=
  (getSecret env).map (fun secret =>
    { sub := userId, expiresInSec := ACCESS_TOKEN_TTL_SEC, signingSecret := secret })

/-- Configuration the server holds after `index.ts` module initialization. -/
structure StartupConfig where
  port : Nat
  webOrigin : String
  deriving DecidableEq

/-- Startup sequence of `index.ts`: reads `PORT`, `WEB_ORIGIN` and
`NODE_ENV` with defaults and wires the middleware; no code path reads or
validates `JWT_ACCESS_SECRET` at startup, so initialization never fails
on it. -/
def startup (env : Env) : Except String StartupConfig :=
  Except.ok { port := env.port.getD 4000
              webOrigin := env.webOrigin.getD "http://localhost:3000" }

/-! ## ISO-8601 date codec

`encodeCursor` calls the ECMAScript built-in `Date.prototype.toISOString`
and `parseCursor` calls `new Date(dateStr)`. The two built-ins are
modelled here for the epoch-onward range of valid JS dates: times are
naturals counting milliseconds since the Unix epoch, formatted as
`YYYY-MM-DDTHH:mm:ss.sssZ` (six-digit `+YYYYYY` expanded years beyond
9999), and parsed back from exactly that grammar. -/

/-- Largest time value a JS `Date` can hold (8.64e15 ms). -/
def MAX_JS_DATE : Nat := 8640000000000000

/-- Numeric value of a decimal digit character. -/
def charVal (c : Char) : Nat := c.toNat - '0'.toNat

/-- Accumulate one decimal digit onto a running value. -/
def digitStep (acc : Nat) (c : Char) : Nat := acc * 10 + charVal c

/-- Big-endian decimal digits of `n` (fuel-driven so that it reduces in
the kernel); `digitsGo fuel n` is correct whenever `n ≤ fuel`. -/
def digitsGo : Nat → Nat → List Char
  | 0, _ => []
  | fuel + 1, n => if n = 0 then [] else digitsGo fuel (n / 10) ++ [Nat.digitChar (n % 10)]

/-- Decimal representation of `n` (at least one digit). -/
def natDigitsBE (n : Nat) : List Char :=
  if n = 0 then ['0'] else digitsGo n n

/-- Zero-pad the decimal representation of `n` to `k` characters. -/
def padChars (k n : Nat) : List Char :=
  List.replicate (k - (natDigitsBE n).length) '0' ++ natDigitsBE n

/-- Gregorian leap-year rule. -/
def isLeapYear (y : Nat) : Bool :=
  (y % 4 == 0 && !(y % 100 == 0)) || y % 400 == 0

/-- Length of February. -/
def febDays (y : Nat) : Nat := if isLeapYear y then 29 else 28

/-- Length of month `m` (1-based) of year `y`. -/
def daysInMonth (y m : Nat) : Nat :=
  match m with
  | 1 => 31 | 2 => febDays y | 3 => 31 | 4 => 30 | 5 => 31 | 6 => 30
  | 7 => 31 | 8 => 31 | 9 => 30 | 10 => 31 | 11 => 30 | _ => 31

/-- Length of year `y` in days. -/
def daysInYear (y : Nat) : Nat := if isLeapYear y then 366 else 365

/-- Days elapsed from 1970-01-01 to the start of year `y`. -/
def daysToYear (y : Nat) : Nat :=
  ((List.range (y - 1970)).map (fun i => daysInYear (1970 + i))).sum

/-- Split a day count (from the start of year `y`) into the year it
lands in and the remaining day-of-year; fuel-driven, correct whenever
`days ≤ fuel`. -/
def yearGo : Nat → Nat → Nat → Nat × Nat
  | 0, days, y => (y, days)
  | fuel + 1, days, y =>
    if days < daysInYear y then (y, days) else yearGo fuel (days - daysInYear y) (y + 1)

/-- Days elapsed from the start of year `y` to the start of month `m`. -/
def monthDaysBefore (y m : Nat) : Nat :=
  match m with
  | 1 => 0
  | 2 => 31
  | 3 => 31 + febDays y
  | 4 => 62 + febDays y
  | 5 => 92 + febDays y
  | 6 => 123 + febDays y
  | 7 => 153 + febDays y
  | 8 => 184 + febDays y
  | 9 => 215 + febDays y
  | 10 => 245 + febDays y
  | 11 => 276 + febDays y
  | _ => 306 + febDays y

/-- One month at a time: step from month `m` while the remaining
day-of-year overflows it; fuel-driven so that it reduces in the kernel. -/
def monthGo (y : Nat) : Nat → Nat → Nat → Nat × Nat
  | 0, m, rem => (m, rem)
  | fuel + 1, m, rem =>
    if rem < daysInMonth y m then (m, rem)
    else monthGo y fuel (m + 1) (rem - daysInMonth y m)

/-- Split a day-of-year into a 1-based month and 0-based day-of-month. -/
def monthSplit (y rem : Nat) : Nat × Nat := monthGo y 11 1 rem

/-- Year field of the ISO string: four digits up to 9999, expanded
`+YYYYYY` form beyond. -/
def yearChars (y : Nat) : List Char :=
  if y < 10000 then padChars 4 y else '+' :: padChars 6 y

/-- Characters of `new Date(ms).toISOString()`. -/
def toISOChars (ms : Nat) : List Char :=
  let days := ms / 86400000
  let msOfDay := ms % 86400000
  let hh := msOfDay / 3600000
  let mi := msOfDay % 3600000 / 60000
  let ss := msOfDay % 60000 / 1000
  let milli := ms % 1000
  let yd := yearGo days days 1970
  let md := monthSplit yd.1 yd.2
  yearChars yd.1 ++ '-' :: padChars 2 md.1 ++ '-' :: padChars 2 (md.2 + 1) ++
    'T' :: padChars 2 hh ++ ':' :: padChars 2 mi ++ ':' :: padChars 2 ss ++
    '.' :: padChars 3 milli ++ ['Z']

/-- `Date.prototype.toISOString` on an epoch-milliseconds value. -/
def toISOString (ms : Nat) : String := String.mk (toISOChars ms)

/-- Read exactly `k` decimal digits, accumulating their value. -/
def takeDigitsGo : Nat → Nat → List Char → Option (Nat × List Char)
  | 0, acc, cs => some (acc, cs)
  | _ + 1, _, [] => none
  | k + 1, acc, c :: cs =>
    if c.isDigit then takeDigitsGo k (acc * 10 + charVal c) cs else none

/-- Read exactly `k` decimal digits from the front of `cs`. -/
def takeDigits (k : Nat) (cs : List Char) : Option (Nat × List Char) :=
  takeDigitsGo k 0 cs

/-- Consume one expected character. -/
def expectChar (c : Char) : List Char → Option (List Char)
  | [] => none
  | x :: rest => if x = c then some rest else none

/-- Year field of the ISO parse: the expanded `+YYYYYY` form or four digits. -/
def parseYearStep (cs : List Char) : Option (Nat × List Char) :=
  match cs with
  | '+' :: rest => takeDigits 6 rest
  | _ => takeDigits 4 cs

/-- Parse of the ISO-8601 grammar emitted by `toISOString` (the
`new Date(dateStr)` built-in restricted to epoch-onward instants),
returning the epoch-milliseconds value, or `none` for a malformed or
out-of-range string (JS `Invalid Date`). -/
def parseISO (cs : List Char) : Option Nat :=
  match parseYearStep cs with
  | none => none
  | some (y, r0) =>
  match expectChar '-' r0 with
  | none => none
  | some r1 =>
  match takeDigits 2 r1 with
  | none => none
  | some (mo, r2) =>
  match expectChar '-' r2 with
  | none => none
  | some r3 =>
  match takeDigits 2 r3 with
  | none => none
  | some (d, r4) =>
  match expectChar 'T' r4 with
  | none => none
  | some r5 =>
  match takeDigits 2 r5 with
  | none => none
  | some (hh, r6) =>
  match expectChar ':' r6 with
  | none => none
  | some r7 =>
  match takeDigits 2 r7 with
  | none => none
  | some (mi, r8) =>
  match expectChar ':' r8 with
  | none => none
  | some r9 =>
  match takeDigits 2 r9 with
  | none => none
  | some (ss, r10) =>
  match expectChar '.' r10 with
  | none => none
  | some r11 =>
  match takeDigits 3 r11 with
  | none => none
  | some (milli, r12) =>
  match expectChar 'Z' r12 with
  | none => none
  | some r13 =>
  if r13 = [] ∧ 1970 ≤ y ∧ 1 ≤ mo ∧ mo ≤ 12 ∧ 1 ≤ d ∧ d ≤ daysInMonth y mo ∧
      hh < 24 ∧ mi < 60 ∧ ss < 60 then
    let total := (daysToYear y + monthDaysBefore y mo + (d - 1)) * 86400000 +
      hh * 3600000 + mi * 60000 + ss * 1000 + milli
    if total ≤ MAX_JS_DATE then some total else none
  else none

/-- `new Date(dateStr).getTime()` with the `isNaN` test folded in. -/
def parseDate (s : String) : Option Nat := parseISO s.data

/-! ## Cursor codec (`routes/workspaces.ts`) -/

/-- Decoded cursor: the ordering-field instant and the tie-break id. -/
structure Cursor where
  date : Nat
  id : String
  deriving DecidableEq

/-- `parseCursor(cursor)`: requires a non-empty string containing `|`
that splits into exactly two parts, a parseable date and a non-empty id. -/
def parseCursor (cursor : String) : Option Cursor :=
  if cursor == "" then none
  else if !(cursor.data.contains '|') then none
  else
    match splitChar '|' cursor.data with
    | [dateCs, idCs] =>
      match parseISO dateCs with
      | none => none
      | some d => if idCs.isEmpty then none else some { date := d, id := String.mk idCs }
    | _ => none

/-- `encodeCursor(date, id)` = `date.toISOString() + "|" + id`. -/
def encodeCursor (date : Nat) (id : String) : String :=
  toISOString date ++ "|" ++ id

/-! ## Ticket listing (`GET /workspaces/:workspaceId/tickets`) -/

inductive SortField
  | createdAt
  | updatedAt
  | title
  | status
  | priority
  deriving DecidableEq

/-- `VALID_SORTS.includes(sortParam)` plus the cast to `SortField`. -/
def parseSortField (s : String) : Option SortField :=
  if s == "createdAt" then some SortField.createdAt
  else if s == "updatedAt" then some SortField.updatedAt
  else if s == "title" then some SortField.title
  else if s == "status" then some SortField.status
  else if s == "priority" then some SortField.priority
  else none

/-- Position of a status in the Postgres enum declaration
`('OPEN', 'PENDING', 'RESOLVED', 'CLOSED')`, which drives `status: "asc"`. -/
def statusRank : TicketStatus → Nat
  | TicketStatus.OPEN => 0
  | TicketStatus.PENDING => 1
  | TicketStatus.RESOLVED => 2
  | TicketStatus.CLOSED => 3

/-- Position of a priority in the enum declaration `LOW, MEDIUM, HIGH`
for `priority: "asc"`, with null sorted last (Postgres default for ASC). -/
def priorityRank : Option TicketPriority → Nat
  | some TicketPriority.LOW => 0
  | some TicketPriority.MEDIUM => 1
  | some TicketPriority.HIGH => 2
  | none => 3

/-- Lexicographic "comes no later than" on a sort key with the row id as
tie-break (both components ascending; descending orders flip arguments). -/
def lexLE {κ : Type} [LinearOrder κ] (ka kb : κ) (ia ib : String) : Bool :=
  decide (ka < kb) || (decide (ka = kb) && decide (ia ≤ ib))

/-- Row order produced by `getOrderBy(sort)`: `createdAt`/`updatedAt`
descending with id descending, the other fields ascending with id
ascending. -/
def ticketLE : SortField → Ticket → Ticket → Bool
  | SortField.createdAt, a, b => lexLE b.createdAt a.createdAt b.id a.id
  | SortField.updatedAt, a, b => lexLE b.updatedAt a.updatedAt b.id a.id
  | SortField.title, a, b => lexLE a.title b.title a.id b.id
  | SortField.status, a, b => lexLE (statusRank a.status) (statusRank b.status) a.id b.id
  | SortField.priority, a, b =>
    lexLE (priorityRank a.priority) (priorityRank b.priority) a.id b.id

/-- `ticketLE` as a relation, for `List.insertionSort`. -/
def ticketOrd (s : SortField) : Ticket → Ticket → Prop :=
  fun a b => ticketLE s a b = true

instance (s : SortField) : DecidableRel (ticketOrd s) := by
  unfold ticketOrd; infer_instance

/-- `mine`: forced for MEMBER, otherwise the query parameter compared
against the literal string "true". -/
def resolvedMine (role : WorkspaceRole) (mineParam : String) : Bool :=
  if role == WorkspaceRole.MEMBER then true else mineParam == "true"

/-- `Math.min(50, Math.max(1, parseInt(...) || 20))`. The argument is the
JS `parseInt` result: `none` models `NaN` (also produced for a missing
parameter the code turns into the string "20" first), and `|| 20`
replaces both `NaN` and `0` by the default. -/
def effectiveLimit (limitParam : Option Int) : Int :=
  min 50 (max 1 (match limitParam with
    | none => 20
    | some v => if v == 0 then 20 else v))

/-- Sort resolution: ADMIN may pick any valid sort field; everything else
(MEMBER, or an unknown field) falls back to `createdAt`. -/
def resolvedSort (role : WorkspaceRole) (sortParam : String) : SortField :=
  if role == WorkspaceRole.ADMIN then (parseSortField sortParam).getD SortField.createdAt
  else SortField.createdAt

/-- Cursor pagination is supported only for the date-based sorts. -/
def sortSupportsCursor (s : SortField) : Bool :=
  s == SortField.createdAt || s == SortField.updatedAt

/-- The date column the cursor compares against (`updatedAt` for that
sort, `createdAt` otherwise). -/
def cursorFieldVal (s : SortField) (t : Ticket) : Nat :=
  if s == SortField.updatedAt then t.updatedAt else t.createdAt

/-- The prisma `where` clause of the listing: workspace scoping, the
`mine` creator filter, and the strict-after composite cursor comparator
`(field < cursor.date) OR (field = cursor.date AND id < cursor.id)`. -/
def ticketMatches (workspaceId userId : String) (mine : Bool) (s : SortField)
    (cursor : Option Cursor) (t : Ticket) : Bool :=
  t.workspaceId == workspaceId && (!mine || t.createdByUserId == userId) &&
    (match cursor with
     | none => true
     | some c =>
       decide (cursorFieldVal s t < c.date) ||
         (cursorFieldVal s t == c.date && decide (t.id < c.id)))

/-- Raw query parameters of the listing request. -/
structure ListQuery where
  mineParam : String
  limitParam : Option Int
  sortParam : String
  cursorParam : String

/-- The cursor the listing uses: parsed from the query only when the
resolved sort supports cursor pagination. -/
def listCursor (role : WorkspaceRole) (q : ListQuery) : Option Cursor :=
  if sortSupportsCursor (resolvedSort role q.sortParam) then parseCursor q.cursorParam else none

/-- The rows `prisma.ticket.findMany` would return before `take`:
filtered by the `where` clause and sorted by `getOrderBy`. -/
def sortedFiltered (db : DB) (workspaceId userId : String) (mine : Bool)
    (s : SortField) (cursor : Option Cursor) : List Ticket :=
  List.insertionSort (ticketOrd s)
    (db.tickets.filter (ticketMatches workspaceId userId mine s cursor))

/-- Handler of `GET /workspaces/:workspaceId/tickets` after the
membership middleware: fetch `limit+1` rows, slice the page, and emit
`nextCursor` from the last retained row exactly when more rows exist and
the sort supports cursors. -/
def listTickets (db : DB) (workspaceId userId : String) (role : WorkspaceRole)
    (q : ListQuery) : List Ticket × Option String :=
  let mine := resolvedMine role q.mineParam
  let limit := (effectiveLimit q.limitParam).toNat
  let s := resolvedSort role q.sortParam
  let cursor := listCursor role q
  let fetchedRows := (sortedFiltered db workspaceId userId mine s cursor).take (limit + 1)
  let hasMore := limit < fetchedRows.length
  let page := if hasMore then fetchedRows.take limit else fetchedRows
  let nextCursor :=
    if hasMore ∧ sortSupportsCursor s = true then
      match page.getLast? with
      | some last => some (encodeCursor (cursorFieldVal s last) last.id)
      | none => none
    else none
  (page, nextCursor)

inductive ListResponse
  | okL (items : List Ticket) (nextCursor : Option String)
  | errL (status : Nat) (code : String)
  deriving DecidableEq

/-- The listing route composed with `requireWorkspaceMemberFromParams`. -/
def listTicketsRoute (db : DB) (workspaceId userId : String) (q : ListQuery) : ListResponse :=
  match requireWorkspaceMember db workspaceId userId with
  | MembershipResult.notFound => ListResponse.errL 404 "NOT_FOUND"
  | MembershipResult.forbidden => ListResponse.errL 403 "FORBIDDEN"
  | MembershipResult.ok wsid role =>
    let r := listTickets db wsid userId role q
    ListResponse.okL r.1 r.2

/-! ## Concrete fixtures used by witnesses and counterexamples -/

/-- A CUSTOMER workspace. -/
def wsAcme : Workspace :=
  { id := "w1", name := "acme.com", domain := some "acme.com", kind := WorkspaceKind.CUSTOMER }

/-- The operations workspace. -/
def wsOps : Workspace :=
  { id := "wOps", name := "Support Ops", domain := none, kind := WorkspaceKind.SUPPORT_OPS }

/-- A ticket created by `bob` in `w1`. -/
def ticketBob : Ticket :=
  { id := "t1", workspaceId := "w1", createdByUserId := "bob", title := "printer on fire"
    status := TicketStatus.OPEN, priority := none, category := none
    createdAt := 100, updatedAt := 100 }

/-- A CLOSED ticket created by `bob` in `w1`. -/
def ticketClosedBob : Ticket :=
  { id := "t2", workspaceId := "w1", createdByUserId := "bob", title := "old issue"
    status := TicketStatus.CLOSED, priority := none, category := none
    createdAt := 50, updatedAt := 60 }

/-- Fixture: `bob` is a MEMBER of `w1`, `alice` an ADMIN member of `w1`
(with no SUPPORT_OPS membership, hence not a support agent), and `carol`
an ADMIN member of the operations workspace (a support agent). -/
def dbFix : DB :=
  { users := []
    workspaces := [wsAcme, wsOps]
    members := [{ workspaceId := "w1", userId := "bob", role := WorkspaceRole.MEMBER },
                { workspaceId := "w1", userId := "alice", role := WorkspaceRole.ADMIN },
                { workspaceId := "wOps", userId := "carol", role := WorkspaceRole.ADMIN }]
    tickets := [ticketBob, ticketClosedBob]
    messages := []
    sessions := [] }

/-- Concrete stand-in for `hashRefreshToken` in witnesses: injective on
the tokens used there. -/
def hashW : String → String := fun s => s ++ "#"

/-- A live refresh session for user `u1` with the hash of token `T1`. -/
def sessionLive : RefreshSession :=
  { id := "s1", userId := "u1", refreshTokenHash := "T1#", expiresAt := 1000
    revokedAt := none }

/-- Fixture holding exactly the one live refresh session. -/
def dbSessions : DB :=
  { users := [], workspaces := [], members := [], tickets := [], messages := []
    sessions := [sessionLive] }

/-! ## C1 — per-ticket access characterization and its 404 boundary -/

/-- C1: for every ticket id, caller and elevated-agent status,
`getTicketWithAccessCheck` returns the stored ticket iff the caller is an
elevated agent on a CUSTOMER workspace, or an ADMIN member of the
ticket's workspace, or a MEMBER of it who created the ticket; in every
other case (including a nonexistent ticket) it returns `none` and
`GET /tickets/:ticketId` responds 404 NOT_FOUND, never 403. -/
theorem ticket_access_characterization :
    ∀ (db : DB) (ticketId userId : String) (agent : Bool),
      (∀ t, getTicketWithAccessCheck db ticketId userId agent = some t ↔
        db.findTicket ticketId = some t ∧ ticketAccessAllowedSpec db t userId agent) ∧
      (getTicketWithAccessCheck db ticketId userId (isSupportAgent db userId) = none →
        getTicketRoute db ticketId userId = GetTicketResponse.err 404 "NOT_FOUND") := by
  intro db ticketId userId agent
  refine ⟨fun t => ?_, fun h => ?_⟩
  · unfold getTicketWithAccessCheck ticketAccessAllowedSpec
    cases hft : db.findTicket ticketId with
    | none => simp
    | some ticket =>
      cases hm : db.findMembership ticket.workspaceId userId with
      | none =>
        by_cases hag : agent = true <;>
          by_cases hk : db.workspaceKindOf ticket.workspaceId = some WorkspaceKind.CUSTOMER <;>
            simp_all [hm] <;> (rintro rfl; simp_all)
      | some m =>
        cases hr : m.role <;>
          by_cases hag : agent = true <;>
            by_cases hk : db.workspaceKindOf ticket.workspaceId = some WorkspaceKind.CUSTOMER <;>
              by_cases hc : ticket.createdByUserId = userId <;>
                simp_all [hm] <;> aesop
  · unfold getTicketRoute
    simp [h]

/-- Witness for C1 on the fixture: creator `bob` reads his ticket, and a
stranger's denial surfaces as 404 NOT_FOUND. -/
theorem ticket_access_characterization_instance :
    getTicketWithAccessCheck dbFix "t1" "bob" false = some ticketBob ∧
      getTicketRoute dbFix "t1" "eve" = GetTicketResponse.err 404 "NOT_FOUND" :=
  ⟨((ticket_access_characterization dbFix "t1" "bob" false).1 ticketBob).mpr (by decide),
   (ticket_access_characterization dbFix "t1" "eve" false).2 (by decide)⟩

/-! ## C4 — membership resolution -/

/-- C4: `requireWorkspaceMember` yields NotFound iff the workspace does
not exist; with an existing workspace, an elevated agent on a CUSTOMER
workspace resolves to ADMIN with no membership row required; in every
other case the explicit membership row determines the role and its
absence yields Forbidden. -/
theorem membership_resolution :
    ∀ (db : DB) (workspaceId userId : String),
      (requireWorkspaceMember db workspaceId userId = MembershipResult.notFound ↔
        db.findWorkspace workspaceId = none) ∧
      (∀ w, db.findWorkspace workspaceId = some w →
        isSupportAgent db userId = true → w.kind = WorkspaceKind.CUSTOMER →
        requireWorkspaceMember db workspaceId userId =
          MembershipResult.ok workspaceId WorkspaceRole.ADMIN) ∧
      (∀ w, db.findWorkspace workspaceId = some w →
        ¬(isSupportAgent db userId = true ∧ w.kind = WorkspaceKind.CUSTOMER) →
        (db.findMembership workspaceId userId = none →
          requireWorkspaceMember db workspaceId userId = MembershipResult.forbidden) ∧
        (∀ m, db.findMembership workspaceId userId = some m →
          requireWorkspaceMember db workspaceId userId =
            MembershipResult.ok m.workspaceId m.role)) := by
  intro db workspaceId userId
  refine ⟨?_, fun w hw hag hk => ?_, fun w hw hno => ⟨fun hm => ?_, fun m hm => ?_⟩⟩
  · unfold requireWorkspaceMember
    cases hw : db.findWorkspace workspaceId with
    | none => simp
    | some w =>
      by_cases hag : isSupportAgent db userId = true <;>
        by_cases hk : w.kind = WorkspaceKind.CUSTOMER <;>
          cases hm : db.findMembership workspaceId userId <;>
            simp_all
  · unfold requireWorkspaceMember
    simp [hw, hag, hk]
  · unfold requireWorkspaceMember
    rcases Decidable.not_and_iff_or_not.mp hno with h | h <;> simp_all
  · unfold requireWorkspaceMember
    rcases Decidable.not_and_iff_or_not.mp hno with h | h <;> simp_all

/-- Witness for C4 on the fixture: support agent `carol` resolves to
ADMIN on the CUSTOMER workspace without a membership row there, a
stranger is Forbidden, and an unknown workspace is NotFound. -/
theorem membership_resolution_instance :
    requireWorkspaceMember dbFix "w1" "carol" = MembershipResult.ok "w1" WorkspaceRole.ADMIN ∧
      requireWorkspaceMember dbFix "w1" "eve" = MembershipResult.forbidden ∧
      requireWorkspaceMember dbFix "w9" "bob" = MembershipResult.notFound :=
  ⟨(membership_resolution dbFix "w1" "carol").2.1 wsAcme (by decide) (by decide) (by decide),
   ((membership_resolution dbFix "w1" "eve").2.2 wsAcme (by decide) (by decide)).1 (by decide),
   (membership_resolution dbFix "w9" "bob").1.mpr (by decide)⟩

/-! ## Order and pagination helper lemmas -/

theorem lexLE_total {κ : Type} [LinearOrder κ] (ka kb : κ) (ia ib : String) :
    lexLE ka kb ia ib = true ∨ lexLE kb ka ib ia = true := by
  unfold lexLE
  rcases lt_trichotomy ka kb with h | h | h
  · left; simp [h]
  · rcases le_total ia ib with h2 | h2
    · left; simp [h, h2]
    · right; simp [h.symm, h2]
  · right; simp [h]

theorem lexLE_trans {κ : Type} [LinearOrder κ] {k1 k2 k3 : κ} {i1 i2 i3 : String}
    (h1 : lexLE k1 k2 i1 i2 = true) (h2 : lexLE k2 k3 i2 i3 = true) :
    lexLE k1 k3 i1 i3 = true := by
  unfold lexLE at h1 h2 ⊢
  simp only [Bool.or_eq_true, Bool.and_eq_true, decide_eq_true_eq] at h1 h2 ⊢
  rcases h1 with h1 | ⟨h1e, h1i⟩ <;> rcases h2 with h2 | ⟨h2e, h2i⟩
  · exact Or.inl (lt_trans h1 h2)
  · exact Or.inl (h2e ▸ h1)
  · exact Or.inl (h1e ▸ h2)
  · exact Or.inr ⟨h1e.trans h2e, le_trans h1i h2i⟩

theorem ticketOrd_total (s : SortField) (a b : Ticket) :
    ticketOrd s a b ∨ ticketOrd s b a := by
  cases s <;> unfold ticketOrd ticketLE <;> exact lexLE_total _ _ _ _

theorem ticketOrd_trans (s : SortField) (a b c : Ticket) :
    ticketOrd s a b → ticketOrd s b c → ticketOrd s a c := by
  cases s <;> unfold ticketOrd ticketLE <;> intro h1 h2 <;>
    first
      | exact lexLE_trans h1 h2
      | exact lexLE_trans h2 h1

theorem sortedFiltered_sorted (db : DB) (workspaceId userId : String) (mine : Bool)
    (s : SortField) (cursor : Option Cursor) :
    List.Sorted (ticketOrd s) (sortedFiltered db workspaceId userId mine s cursor) := by
  haveI : IsTotal Ticket (ticketOrd s) := ⟨ticketOrd_total s⟩
  haveI : IsTrans Ticket (ticketOrd s) := ⟨ticketOrd_trans s⟩
  exact List.sorted_insertionSort _ _

theorem sortedFiltered_perm (db : DB) (workspaceId userId : String) (mine : Bool)
    (s : SortField) (cursor : Option Cursor) :
    (sortedFiltered db workspaceId userId mine s cursor).Perm
      (db.tickets.filter (ticketMatches workspaceId userId mine s cursor)) :=
  List.perm_insertionSort _ _

theorem listTickets_fst (db : DB) (workspaceId userId : String) (role : WorkspaceRole)
    (q : ListQuery) :
    (listTickets db workspaceId userId role q).1 =
      (sortedFiltered db workspaceId userId (resolvedMine role q.mineParam)
        (resolvedSort role q.sortParam) (listCursor role q)).take
        (effectiveLimit q.limitParam).toNat := by
  unfold listTickets
  simp only
  generalize (sortedFiltered db workspaceId userId (resolvedMine role q.mineParam)
    (resolvedSort role q.sortParam) (listCursor role q)) = sf
  generalize (effectiveLimit q.limitParam).toNat = n
  have hlt : (sf.take (n+1)).length = min (n+1) sf.length := List.length_take _ _
  split
  · rename_i h
    rw [List.take_take]
    congr 1
    omega
  · rename_i h
    have hlen : sf.length ≤ n := by omega
    rw [List.take_of_length_le hlen, List.take_of_length_le (le_trans hlen (Nat.le_succ n))]

theorem listTickets_snd (db : DB) (workspaceId userId : String) (role : WorkspaceRole)
    (q : ListQuery) :
    (listTickets db workspaceId userId role q).2 =
      if ((effectiveLimit q.limitParam).toNat <
            (sortedFiltered db workspaceId userId (resolvedMine role q.mineParam)
              (resolvedSort role q.sortParam) (listCursor role q)).length ∧
          sortSupportsCursor (resolvedSort role q.sortParam) = true) then
        (((sortedFiltered db workspaceId userId (resolvedMine role q.mineParam)
            (resolvedSort role q.sortParam) (listCursor role q)).take
            (effectiveLimit q.limitParam).toNat).getLast?).map
          (fun last =>
            encodeCursor (cursorFieldVal (resolvedSort role q.sortParam) last) last.id)
      else none := by
  unfold listTickets
  simp only
  generalize (sortedFiltered db workspaceId userId (resolvedMine role q.mineParam)
    (resolvedSort role q.sortParam) (listCursor role q)) = sf
  generalize (effectiveLimit q.limitParam).toNat = n
  have hlt : (sf.take (n+1)).length = min (n+1) sf.length := List.length_take _ _
  by_cases hm : n < sf.length
  · have h1 : n < (sf.take (n+1)).length := by omega
    have h2 : (sf.take (n+1)).take n = sf.take n := by
      rw [List.take_take]; congr 1; omega
    by_cases hsup : sortSupportsCursor (resolvedSort role q.sortParam) = true
    · simp only [if_pos h1, if_pos (And.intro h1 hsup), if_pos (And.intro hm hsup), h2]
      cases hg : (sf.take n).getLast? <;> simp [hg]
    · have hc1 : ¬(n < (sf.take (n+1)).length ∧
          sortSupportsCursor (resolvedSort role q.sortParam) = true) := by
        intro hc; exact hsup hc.2
      have hc2 : ¬(n < sf.length ∧
          sortSupportsCursor (resolvedSort role q.sortParam) = true) := by
        intro hc; exact hsup hc.2
      simp [hc1, hc2]
  · have h1 : ¬ n < (sf.take (n+1)).length := by omega
    have hc1 : ¬(n < (sf.take (n+1)).length ∧
        sortSupportsCursor (resolvedSort role q.sortParam) = true) := by
      intro hc; exact h1 hc.1
    have hc2 : ¬(n < sf.length ∧
        sortSupportsCursor (resolvedSort role q.sortParam) = true) := by
      intro hc; exact hm hc.1
    simp [hc1, hc2]

theorem effectiveLimit_bounds (p : Option Int) :
    1 ≤ effectiveLimit p ∧ effectiveLimit p ≤ 50 := by
  unfold effectiveLimit
  rcases p with _ | v
  · constructor <;> simp
  · by_cases hv : v = 0 <;> simp [hv]

theorem mem_listTickets_matches (db : DB) (workspaceId userId : String)
    (role : WorkspaceRole) (q : ListQuery) :
    ∀ t ∈ (listTickets db workspaceId userId role q).1,
      ticketMatches workspaceId userId (resolvedMine role q.mineParam)
        (resolvedSort role q.sortParam) (listCursor role q) t = true := by
  intro t ht
  rw [listTickets_fst] at ht
  have h1 := (List.take_sublist _ _).subset ht
  have h2 := (sortedFiltered_perm db workspaceId userId (resolvedMine role q.mineParam)
    (resolvedSort role q.sortParam) (listCursor role q)).mem_iff.mp h1
  exact (List.mem_filter.mp h2).2

/-! ## C5 — pagination contract of the ticket listing -/

/-- C5: the listing clamps the limit to `[1,50]`; the page is the first
`limit` rows of the ordered, cursor-filtered fetch (sorted by the
resolved field with id tie-break); every returned row satisfies the
composite strictly-after comparator; `nextCursor` is non-null exactly
when `limit+1` rows were fetched (more filtered rows than `limit` exist)
and the sort supports cursors; when present it is computed from the last
retained row; and the first-page-only sorts (`title`, `status`,
`priority`) always emit a null `nextCursor` even when more rows exist. -/
theorem list_tickets_pagination :
    ∀ (db : DB) (workspaceId userId : String) (role : WorkspaceRole) (q : ListQuery),
      1 ≤ effectiveLimit q.limitParam ∧
      effectiveLimit q.limitParam ≤ 50 ∧
      (listTickets db workspaceId userId role q).1 =
        (sortedFiltered db workspaceId userId (resolvedMine role q.mineParam)
          (resolvedSort role q.sortParam) (listCursor role q)).take
          (effectiveLimit q.limitParam).toNat ∧
      List.Sorted (ticketOrd (resolvedSort role q.sortParam))
        (listTickets db workspaceId userId role q).1 ∧
      (∀ t ∈ (listTickets db workspaceId userId role q).1,
        ticketMatches workspaceId userId (resolvedMine role q.mineParam)
          (resolvedSort role q.sortParam) (listCursor role q) t = true) ∧
      ((listTickets db workspaceId userId role q).2.isSome ↔
        (effectiveLimit q.limitParam).toNat <
            (db.tickets.filter (ticketMatches workspaceId userId (resolvedMine role q.mineParam)
              (resolvedSort role q.sortParam) (listCursor role q))).length ∧
          sortSupportsCursor (resolvedSort role q.sortParam) = true) ∧
      (∀ c, (listTickets db workspaceId userId role q).2 = some c →
        ∃ last, (listTickets db workspaceId userId role q).1.getLast? = some last ∧
          c = encodeCursor (cursorFieldVal (resolvedSort role q.sortParam) last) last.id) ∧
      (sortSupportsCursor (resolvedSort role q.sortParam) = false →
        (listTickets db workspaceId userId role q).2 = none) := by
  intro db workspaceId userId role q
  have hb := effectiveLimit_bounds q.limitParam
  have hfst := listTickets_fst db workspaceId userId role q
  have hsnd := listTickets_snd db workspaceId userId role q
  have hperm := sortedFiltered_perm db workspaceId userId (resolvedMine role q.mineParam)
    (resolvedSort role q.sortParam) (listCursor role q)
  have hplen := hperm.length_eq
  have hn1 : 1 ≤ (effectiveLimit q.limitParam).toNat := by omega
  refine ⟨hb.1, hb.2, hfst, ?_, mem_listTickets_matches db workspaceId userId role q,
    ?_, ?_, ?_⟩
  · rw [hfst]
    exact List.Pairwise.sublist (List.take_sublist _ _)
      (sortedFiltered_sorted db workspaceId userId (resolvedMine role q.mineParam)
        (resolvedSort role q.sortParam) (listCursor role q))
  · rw [hsnd]
    constructor
    · intro hs
      by_cases hc : (effectiveLimit q.limitParam).toNat <
          (sortedFiltered db workspaceId userId (resolvedMine role q.mineParam)
            (resolvedSort role q.sortParam) (listCursor role q)).length ∧
          sortSupportsCursor (resolvedSort role q.sortParam) = true
      · exact ⟨by omega, hc.2⟩
      · rw [if_neg hc] at hs
        simp at hs
    · intro hc
      have hc2 : (effectiveLimit q.limitParam).toNat <
          (sortedFiltered db workspaceId userId (resolvedMine role q.mineParam)
            (resolvedSort role q.sortParam) (listCursor role q)).length := by omega
      rw [if_pos ⟨hc2, hc.2⟩]
      have hlen : 0 < ((sortedFiltered db workspaceId userId (resolvedMine role q.mineParam)
          (resolvedSort role q.sortParam) (listCursor role q)).take
          (effectiveLimit q.limitParam).toNat).length := by
        rw [List.length_take]
        omega
      have hne := List.length_pos.mp hlen
      have hgs := List.getLast?_isSome.mpr hne
      cases hgl : ((sortedFiltered db workspaceId userId (resolvedMine role q.mineParam)
          (resolvedSort role q.sortParam) (listCursor role q)).take
          (effectiveLimit q.limitParam).toNat).getLast? with
      | none => rw [hgl] at hgs; simp at hgs
      | some last => rfl
  · intro c hc
    rw [hsnd] at hc
    by_cases hcond : (effectiveLimit q.limitParam).toNat <
        (sortedFiltered db workspaceId userId (resolvedMine role q.mineParam)
          (resolvedSort role q.sortParam) (listCursor role q)).length ∧
        sortSupportsCursor (resolvedSort role q.sortParam) = true
    · rw [if_pos hcond] at hc
      cases hg : ((sortedFiltered db workspaceId userId (resolvedMine role q.mineParam)
          (resolvedSort role q.sortParam) (listCursor role q)).take
          (effectiveLimit q.limitParam).toNat).getLast? with
      | none => rw [hg] at hc; simp at hc
      | some last =>
        rw [hg] at hc
        have hcc : encodeCursor (cursorFieldVal (resolvedSort role q.sortParam) last) last.id
            = c := by simpa using hc
        exact ⟨last, by rw [hfst]; exact hg, hcc.symm⟩
    · rw [if_neg hcond] at hc
      simp at hc
  · intro hns
    rw [hsnd]
    rw [if_neg]
    intro hcond
    simp [hns] at hcond

/-- Witness for C5 on the fixture: two matching tickets, limit 1,
createdAt sort — the emitted cursor is built from the last retained row. -/
theorem list_tickets_pagination_instance :
    ∃ last, (listTickets dbFix "w1" "alice" WorkspaceRole.ADMIN
        { mineParam := "false", limitParam := some 1, sortParam := "createdAt"
          cursorParam := "" }).1.getLast? = some last ∧
      "1970-01-01T00:00:00.100Z|t1" =
        encodeCursor (cursorFieldVal (resolvedSort WorkspaceRole.ADMIN "createdAt") last)
          last.id :=
  (list_tickets_pagination dbFix "w1" "alice" WorkspaceRole.ADMIN
    { mineParam := "false", limitParam := some 1, sortParam := "createdAt"
      cursorParam := "" }).2.2.2.2.2.2.1
    "1970-01-01T00:00:00.100Z|t1" (by decide)

/-! ## C6 — the closed-ticket reply gate -/

/-- C6: on a CLOSED ticket the caller already has read access to, a
plain MEMBER (neither support agent nor workspace ADMIN) is rejected
with the distinct TicketClosed signal and the database is untouched,
while a support agent or a workspace ADMIN still gets a message created
on the same closed ticket. -/
theorem closed_ticket_reply_gate :
    ∀ (db : DB) (ticketId userId content : String) (now : Nat) (newMessageId : String)
      (t : Ticket),
      getTicketWithAccessCheck db ticketId userId (isSupportAgent db userId) = some t →
      t.status = TicketStatus.CLOSED →
      1 ≤ content.length → content.length ≤ 5000 →
      ((isSupportAgent db userId = false ∧
          (db.findMembership t.workspaceId userId).map WorkspaceMember.role =
            some WorkspaceRole.MEMBER →
         postTicketMessage db ticketId userId content now newMessageId =
           (ReplyResult.ticketClosed, db)) ∧
       (isSupportAgent db userId = true ∨
          (db.findMembership t.workspaceId userId).map WorkspaceMember.role =
            some WorkspaceRole.ADMIN →
         ∃ m, (postTicketMessage db ticketId userId content now newMessageId).1 =
             ReplyResult.created m ∧
           (postTicketMessage db ticketId userId content now newMessageId).2.messages =
             db.messages ++ [m])) := by
  intro db ticketId userId content now newMessageId t hacc hclosed hlen1 hlen2
  have hv0 : content.length ≠ 0 := by omega
  have hv1 : ¬(content.length < 1) := by omega
  have hv2 : ¬(5000 < content.length) := by omega
  constructor
  · rintro ⟨hag, hm⟩
    cases hmm : db.findMembership t.workspaceId userId with
    | none => simp [hmm] at hm
    | some m =>
      have hrole : m.role = WorkspaceRole.MEMBER := by rw [hmm] at hm; simpa using hm
      rw [hag] at hacc
      unfold postTicketMessage
      simp [hacc, hag, hclosed, hmm, hrole, hv0, hv1, hv2]
  · intro hor
    unfold postTicketMessage
    rcases hor with hag | hm
    · rw [hag] at hacc
      refine ⟨{ id := newMessageId, ticketId := ticketId, authorId := userId
                content := content, createdAt := now }, ?_, ?_⟩ <;>
        simp [hacc, hag, hclosed, hv0, hv1, hv2]
    · cases hmm : db.findMembership t.workspaceId userId with
      | none => simp [hmm] at hm
      | some m =>
        have hrole : m.role = WorkspaceRole.ADMIN := by rw [hmm] at hm; simpa using hm
        refine ⟨{ id := newMessageId, ticketId := ticketId, authorId := userId
                  content := content, createdAt := now }, ?_, ?_⟩ <;>
          simp [hacc, hclosed, hmm, hrole, hv0, hv1, hv2]

/-- Witness for C6 on the fixture: creator `bob` (MEMBER) is rejected
with TicketClosed on the CLOSED ticket and nothing changes, while
support agent `carol` gets her reply created on the same ticket. -/
theorem closed_ticket_reply_gate_instance :
    postTicketMessage dbFix "t2" "bob" "hello" 999 "m9" = (ReplyResult.ticketClosed, dbFix) ∧
      (∃ m, (postTicketMessage dbFix "t2" "carol" "hello" 999 "m9").1 =
          ReplyResult.created m ∧
        (postTicketMessage dbFix "t2" "carol" "hello" 999 "m9").2.messages =
          dbFix.messages ++ [m]) :=
  ⟨(closed_ticket_reply_gate dbFix "t2" "bob" "hello" 999 "m9" ticketClosedBob
      (by decide) (by decide) (by decide) (by decide)).1 ⟨by decide, by decide⟩,
   (closed_ticket_reply_gate dbFix "t2" "carol" "hello" 999 "m9" ticketClosedBob
      (by decide) (by decide) (by decide) (by decide)).2 (Or.inl (by decide))⟩

/-! ## C7 — the `mine` flag is forced only for resolved role MEMBER -/

/-- Counterexample to C7: `alice` holds an explicit ADMIN membership in
the CUSTOMER workspace but is not an elevated agent; the middleware
resolves her to ADMIN, and with `mine=false` her listing contains a
ticket created by someone else — so `mine` is not forced true for every
non-elevated caller. -/
theorem mine_not_forced_for_plain_admin :
    isSupportAgent dbFix "alice" = false ∧
      requireWorkspaceMember dbFix "w1" "alice" =
        MembershipResult.ok "w1" WorkspaceRole.ADMIN ∧
      (∃ t, t ∈ (listTickets dbFix "w1" "alice" WorkspaceRole.ADMIN
          { mineParam := "false", limitParam := some 20, sortParam := "createdAt"
            cursorParam := "" }).1 ∧
        t.createdByUserId ≠ "alice") :=
  ⟨by decide, by decide, ⟨ticketBob, by decide, by decide⟩⟩

/-- C7 (amended): `mine` is forced true exactly when the resolved role is
MEMBER — every item a MEMBER receives was created by the caller — while
for a resolved ADMIN (elevated or not) the caller-supplied `mine`
parameter is honored. -/
theorem mine_forced_only_for_member :
    ∀ (db : DB) (workspaceId userId : String) (q : ListQuery),
      resolvedMine WorkspaceRole.MEMBER q.mineParam = true ∧
      resolvedMine WorkspaceRole.ADMIN q.mineParam = (q.mineParam == "true") ∧
      ∀ t ∈ (listTickets db workspaceId userId WorkspaceRole.MEMBER q).1,
        t.createdByUserId = userId := by
  intro db workspaceId userId q
  refine ⟨rfl, rfl, fun t ht => ?_⟩
  have h := mem_listTickets_matches db workspaceId userId WorkspaceRole.MEMBER q t ht
  unfold ticketMatches at h
  rw [Bool.and_eq_true, Bool.and_eq_true] at h
  have hb := h.1.2
  rw [show resolvedMine WorkspaceRole.MEMBER q.mineParam = true from rfl] at hb
  simpa using hb

/-- Witness for the amended C7: `bob` as MEMBER receives only his own
tickets. -/
theorem mine_forced_only_for_member_instance :
    ticketBob.createdByUserId = "bob" :=
  (mine_forced_only_for_member dbFix "w1" "bob"
    { mineParam := "false", limitParam := some 20, sortParam := "createdAt"
      cursorParam := "" }).2.2 ticketBob (by decide)

/-! ## C2 — refresh succeeds only against a live matching session -/

/-- C2: `POST /auth/refresh` succeeds iff a session whose stored hash
equals the hash of the presented token exists, is unrevoked, and is not
expired; every failure mode (missing cookie, no match, revoked, expired)
responds Unauthorized and leaves the Session Ledger exactly as it was —
in particular no new session row is created. Hash uniqueness across the
ledger (a stated data-model invariant) is assumed. -/
theorem refresh_success_iff_live_session :
    ∀ (db : DB) (hash : String → String) (cookieToken : Option String) (now : Nat)
      (newToken newSessionId : String),
      List.Pairwise (fun a b => a.refreshTokenHash ≠ b.refreshTokenHash) db.sessions →
      ((∃ u, (refresh db hash cookieToken now newToken newSessionId).1 =
          RefreshResponse.refreshed u) ↔
        (∃ tok, cookieToken = some tok ∧ ∃ s ∈ db.sessions,
          s.refreshTokenHash = hash tok ∧ s.revokedAt = none ∧ now ≤ s.expiresAt)) ∧
      ((refresh db hash cookieToken now newToken newSessionId).1 =
          RefreshResponse.unauthorized →
        (refresh db hash cookieToken now newToken newSessionId).2 = db) := by
  intro db hash cookieToken now newToken newSessionId hpw
  have hsym : Symmetric (fun (a b : RefreshSession) =>
      a.refreshTokenHash ≠ b.refreshTokenHash) := fun a b h => Ne.symm h
  cases cookieToken with
  | none =>
    constructor
    · constructor
      · rintro ⟨u, hu⟩
        simp [refresh] at hu
      · rintro ⟨tok, htok, _⟩
        cases htok
    · intro _
      rfl
  | some t =>
    simp only [refresh]
    cases hfind : db.sessions.find? (fun s => s.refreshTokenHash == hash t) with
    | none =>
      simp only [hfind]
      constructor
      · constructor
        · rintro ⟨u, hu⟩
          cases hu
        · rintro ⟨tok, htok, s, hmem, hhash, hrev, hexp⟩
          have htt : t = tok := by injection htok
          subst htt
          have := List.find?_eq_none.mp hfind s hmem
          simp [hhash] at this
      · intro _
        trivial
    | some s =>
      have hmem := List.mem_of_find?_eq_some hfind
      have hps := List.find?_some hfind
      have hhs : s.refreshTokenHash = hash t := by simpa using hps
      simp only [hfind]
      by_cases hdead : (!(s.revokedAt == none) || decide (s.expiresAt < now)) = true
      · rw [if_pos hdead]
        constructor
        · constructor
          · rintro ⟨u, hu⟩
            cases hu
          · rintro ⟨tok, htok, s2, hmem2, hhash2, hrev2, hexp2⟩
            have htt : t = tok := by injection htok
            subst htt
            have hs2 : s2 = s := by
              by_cases he : s2 = s
              · exact he
              · exact absurd (hhash2.trans hhs.symm) (hpw.forall hsym hmem2 hmem he)
            rw [hs2] at hrev2 hexp2
            have hd2 : s.revokedAt ≠ none ∨ s.expiresAt < now := by simpa using hdead
            rcases hd2 with hr | he
            · exact absurd hrev2 hr
            · exact absurd hexp2 (by omega)
        · intro _
          rfl
      · obtain ⟨hrvn, hexne⟩ : s.revokedAt = none ∧ ¬(s.expiresAt < now) := by
          simpa using hdead
        have hexn : now ≤ s.expiresAt := by omega
        rw [if_neg hdead]
        constructor
        · constructor
          · intro _
            exact ⟨t, rfl, s, hmem, hhs, hrvn, hexn⟩
          · intro _
            exact ⟨s.userId, rfl⟩
        · intro hu
          cases hu

/-! ## C3 — rotation makes refresh one-shot per token -/

theorem refresh_fails_of_hashDead (db : DB) (hash : String → String) (t : String)
    (now : Nat) (nt nsid : String) (hd : hashDeadIn db (hash t)) :
    (refresh db hash (some t) now nt nsid).1 = RefreshResponse.unauthorized := by
  simp only [refresh]
  cases hfind : db.sessions.find? (fun s => s.refreshTokenHash == hash t) with
  | none => simp [hfind]
  | some s =>
    have hmem := List.mem_of_find?_eq_some hfind
    have hhs : s.refreshTokenHash = hash t := by simpa using List.find?_some hfind
    have hrev := hd s hmem hhs
    have hb : (s.revokedAt == none) = false := by
      cases hr : s.revokedAt with
      | none => exact absurd hr hrev
      | some v => rfl
    simp [hfind, hb]

theorem hashDead_step (hash : String → String) (db : DB) (c : RefreshCmd) (h : String)
    (hd : hashDeadIn db h) (hne : hash c.newToken ≠ h) :
    hashDeadIn (refreshStep hash db c) h := by
  unfold refreshStep
  simp only [refresh]
  cases hfind : db.sessions.find? (fun s => s.refreshTokenHash == hash c.token) with
  | none => simp only [hfind]; exact hd
  | some s =>
    simp only [hfind]
    by_cases hdead : (!(s.revokedAt == none) || decide (s.expiresAt < c.now)) = true
    · rw [if_pos hdead]
      exact hd
    · rw [if_neg hdead]
      intro s2 hmem2 hhash2
      rcases List.mem_append.mp hmem2 with hin | hin
      · obtain ⟨s0, hs0, heq⟩ := List.mem_map.mp hin
        subst heq
        have hh0 : s0.refreshTokenHash = h := by
          by_cases hid : (s0.id == s.id) = true <;> simpa [hid] using hhash2
        have hr0 := hd s0 hs0 hh0
        by_cases hid : (s0.id == s.id) = true
        · simp [hid]
        · simpa [hid] using hr0
      · have hs2 := List.mem_singleton.mp hin
        subst hs2
        exact absurd hhash2 hne

theorem hashDead_run (hash : String → String) (h : String) :
    ∀ (cs : List RefreshCmd) (db : DB), hashDeadIn db h →
      (∀ c ∈ cs, hash c.newToken ≠ h) → hashDeadIn (runRefreshes hash db cs) h := by
  intro cs
  induction cs with
  | nil => intro db hd _; exact hd
  | cons c cs ih =>
    intro db hd hcs
    exact ih _ (hashDead_step hash db c h hd (hcs c (List.mem_cons_self _ _)))
      (fun c2 hc2 => hcs c2 (List.mem_cons_of_mem _ hc2))

theorem rotation_dead (db : DB) (hash : String → String) (t : String) (now : Nat)
    (nt nsid : String)
    (hone : ∀ s1 ∈ db.sessions, ∀ s2 ∈ db.sessions,
      s1.refreshTokenHash = hash t → s2.refreshTokenHash = hash t → s1 = s2)
    (hne : hash nt ≠ hash t)
    (hsucc : ∃ u, (refresh db hash (some t) now nt nsid).1 = RefreshResponse.refreshed u) :
    hashDeadIn (refreshStep hash db ⟨t, now, nt, nsid⟩) (hash t) := by
  unfold refreshStep
  simp only [refresh] at hsucc ⊢
  cases hfind : db.sessions.find? (fun s => s.refreshTokenHash == hash t) with
  | none => simp [hfind] at hsucc
  | some s =>
    have hmem := List.mem_of_find?_eq_some hfind
    have hhs : s.refreshTokenHash = hash t := by simpa using List.find?_some hfind
    simp only [hfind] at hsucc ⊢
    by_cases hdead : (!(s.revokedAt == none) || decide (s.expiresAt < now)) = true
    · rw [if_pos hdead] at hsucc
      obtain ⟨u, hu⟩ := hsucc
      cases hu
    · rw [if_neg hdead]
      intro s2 hmem2 hhash2
      rcases List.mem_append.mp hmem2 with hin | hin
      · obtain ⟨s0, hs0, heq⟩ := List.mem_map.mp hin
        subst heq
        have hh0 : s0.refreshTokenHash = hash t := by
          by_cases hid : (s0.id == s.id) = true <;> simpa [hid] using hhash2
        have hs0s : s0 = s := hone s0 hs0 s hmem hh0 hhs
        have hid : (s0.id == s.id) = true := by rw [hs0s]; exact beq_self_eq_true _
        simp [hid]
      · have hs2 := List.mem_singleton.mp hin
        subst hs2
        exact absurd hhash2 hne

theorem rotated_hash_unique (db : DB) (hash : String → String) (t : String) (now : Nat)
    (nt nsid : String)
    (hfresh : ∀ s ∈ db.sessions, s.refreshTokenHash ≠ hash nt) :
    ∀ s1 ∈ (refreshStep hash db ⟨t, now, nt, nsid⟩).sessions,
    ∀ s2 ∈ (refreshStep hash db ⟨t, now, nt, nsid⟩).sessions,
      s1.refreshTokenHash = hash nt → s2.refreshTokenHash = hash nt → s1 = s2 := by
  unfold refreshStep
  simp only [refresh]
  have hmapped : ∀ (s : RefreshSession) (s0 : RefreshSession), s0 ∈ db.sessions →
      ∀ x, x = (if (s0.id == s.id) = true then { s0 with revokedAt := some now } else s0) →
      x.refreshTokenHash ≠ hash nt := by
    intro s s0 hs0 x hx
    subst hx
    by_cases hid : (s0.id == s.id) = true <;> simpa [hid] using hfresh s0 hs0
  cases hfind : db.sessions.find? (fun s => s.refreshTokenHash == hash t) with
  | none =>
    simp only [hfind]
    intro s1 h1 s2 h2 e1 _
    exact absurd e1 (hfresh s1 h1)
  | some s =>
    simp only [hfind]
    by_cases hdead : (!(s.revokedAt == none) || decide (s.expiresAt < now)) = true
    · rw [if_pos hdead]
      intro s1 h1 s2 h2 e1 _
      exact absurd e1 (hfresh s1 h1)
    · rw [if_neg hdead]
      intro s1 h1 s2 h2 e1 e2
      have key : ∀ x ∈ (db.sessions.map (fun s0 =>
          if (s0.id == s.id) = true then { s0 with revokedAt := some now } else s0) ++
          [({ id := nsid, userId := s.userId, refreshTokenHash := hash nt,
              expiresAt := now + REFRESH_EXPIRES_MS, revokedAt := none } : RefreshSession)]),
          x.refreshTokenHash = hash nt →
          x = { id := nsid, userId := s.userId, refreshTokenHash := hash nt,
                expiresAt := now + REFRESH_EXPIRES_MS, revokedAt := none } := by
        intro x hx he
        rcases List.mem_append.mp hx with hin | hin
        · obtain ⟨s0, hs0, heq⟩ := List.mem_map.mp hin
          exact absurd he (hmapped s s0 hs0 x heq.symm)
        · exact List.mem_singleton.mp hin
      rw [key s1 h1 e1, key s2 h2 e2]



theorem second_refresh_succeeds (db : DB) (hash : String → String) (t1 t2 : String)
    (n1 : Nat) (sid2 : String)
    (hfresh : ∀ s ∈ db.sessions, s.refreshTokenHash ≠ hash t2)
    (hsucc : ∃ u, (refresh db hash (some t1) n1 t2 sid2).1 = RefreshResponse.refreshed u) :
    ∀ (n2 : Nat) (nt3 sid3 : String), n2 ≤ n1 + REFRESH_EXPIRES_MS →
      ∃ u, (refresh (refreshStep hash db ⟨t1, n1, t2, sid2⟩) hash (some t2) n2 nt3 sid3).1 =
        RefreshResponse.refreshed u := by
  intro n2 nt3 sid3 hn2
  unfold refreshStep
  simp only [refresh] at hsucc ⊢
  cases hfind : db.sessions.find? (fun s => s.refreshTokenHash == hash t1) with
  | none => simp [hfind] at hsucc
  | some s =>
    simp only [hfind] at hsucc ⊢
    by_cases hdead : (!(s.revokedAt == none) || decide (s.expiresAt < n1)) = true
    · rw [if_pos hdead] at hsucc
      obtain ⟨u, hu⟩ := hsucc
      cases hu
    · rw [if_neg hdead]
      have hfind2 : ((db.sessions.map (fun s0 =>
          if (s0.id == s.id) = true then { s0 with revokedAt := some n1 } else s0)) ++
          [({ id := sid2, userId := s.userId, refreshTokenHash := hash t2,
              expiresAt := n1 + REFRESH_EXPIRES_MS, revokedAt := none } : RefreshSession)]).find?
            (fun x => x.refreshTokenHash == hash t2) =
          some { id := sid2, userId := s.userId, refreshTokenHash := hash t2,
                 expiresAt := n1 + REFRESH_EXPIRES_MS, revokedAt := none } := by
        rw [List.find?_append]
        have h1 : (db.sessions.map (fun s0 =>
            if (s0.id == s.id) = true then { s0 with revokedAt := some n1 } else s0)).find?
            (fun x => x.refreshTokenHash == hash t2) = none := by
          rw [List.find?_eq_none]
          intro x hx
          obtain ⟨s0, hs0, heq⟩ := List.mem_map.mp hx
          subst heq
          by_cases hid : (s0.id == s.id) = true <;>
            simpa [hid] using hfresh s0 hs0
        rw [h1]
        simp
      refine ⟨s.userId, ?_⟩
      have hlt : ¬(n1 + REFRESH_EXPIRES_MS < n2) := by omega
      rw [hfind2]
      simp [hlt]

/-- C3: after a successful refresh rotates T1 into T2 (with fresh T2
hash), every later presentation of T1 — across any further refresh
traffic whose generated tokens do not collide with T1's hash — fails
Unauthorized; the first presentation of T2 within the expiry window
succeeds; and after any successful refresh of T2, every subsequent
presentation of T2 fails likewise. -/
theorem refresh_rotation_one_shot :
    ∀ (db : DB) (hash : String → String) (t1 t2 : String) (n1 : Nat) (sid2 : String),
      List.Pairwise (fun a b => a.refreshTokenHash ≠ b.refreshTokenHash) db.sessions →
      (∀ s ∈ db.sessions, s.refreshTokenHash ≠ hash t2) →
      hash t2 ≠ hash t1 →
      (∃ u, (refresh db hash (some t1) n1 t2 sid2).1 = RefreshResponse.refreshed u) →
      ((∀ cs : List RefreshCmd, (∀ c ∈ cs, hash c.newToken ≠ hash t1) →
        ∀ (n : Nat) (nt nsid : String),
          (refresh (runRefreshes hash (refreshStep hash db ⟨t1, n1, t2, sid2⟩) cs)
            hash (some t1) n nt nsid).1 = RefreshResponse.unauthorized) ∧
      (∀ (n2 : Nat) (nt3 sid3 : String), n2 ≤ n1 + REFRESH_EXPIRES_MS →
        ∃ u, (refresh (refreshStep hash db ⟨t1, n1, t2, sid2⟩) hash (some t2) n2 nt3 sid3).1 =
          RefreshResponse.refreshed u) ∧
      (∀ (n2 : Nat) (nt3 sid3 : String), hash nt3 ≠ hash t2 →
        (∃ u, (refresh (refreshStep hash db ⟨t1, n1, t2, sid2⟩) hash (some t2) n2 nt3 sid3).1 =
          RefreshResponse.refreshed u) →
        ∀ cs : List RefreshCmd, (∀ c ∈ cs, hash c.newToken ≠ hash t2) →
        ∀ (n : Nat) (nt nsid : String),
          (refresh (runRefreshes hash
              (refreshStep hash (refreshStep hash db ⟨t1, n1, t2, sid2⟩) ⟨t2, n2, nt3, sid3⟩) cs)
            hash (some t2) n nt nsid).1 = RefreshResponse.unauthorized)) := by
  intro db hash t1 t2 n1 sid2 hpw hfresh h21 hsucc
  have hsym : Symmetric (fun (a b : RefreshSession) =>
      a.refreshTokenHash ≠ b.refreshTokenHash) := fun a b h => Ne.symm h
  have hone1 : ∀ s1 ∈ db.sessions, ∀ s2 ∈ db.sessions,
      s1.refreshTokenHash = hash t1 → s2.refreshTokenHash = hash t1 → s1 = s2 := by
    intro s1 h1 s2 h2 e1 e2
    by_cases he : s1 = s2
    · exact he
    · exact absurd (e1.trans e2.symm) (hpw.forall hsym h1 h2 he)
  have hdead1 : hashDeadIn (refreshStep hash db ⟨t1, n1, t2, sid2⟩) (hash t1) :=
    rotation_dead db hash t1 n1 t2 sid2 hone1 h21 hsucc
  refine ⟨?_, second_refresh_succeeds db hash t1 t2 n1 sid2 hfresh hsucc, ?_⟩
  · intro cs hcs n nt nsid
    exact refresh_fails_of_hashDead _ hash t1 n nt nsid
      (hashDead_run hash (hash t1) cs _ hdead1 hcs)
  · intro n2 nt3 sid3 hne3 hsucc2 cs hcs n nt nsid
    have hone2 := rotated_hash_unique db hash t1 n1 t2 sid2 hfresh
    have hdead2 : hashDeadIn
        (refreshStep hash (refreshStep hash db ⟨t1, n1, t2, sid2⟩) ⟨t2, n2, nt3, sid3⟩)
        (hash t2) :=
      rotation_dead _ hash t2 n2 nt3 sid3 hone2 hne3 hsucc2
    exact refresh_fails_of_hashDead _ hash t2 n nt nsid
      (hashDead_run hash (hash t2) cs _ hdead2 hcs)


/-- Witness for C2: the live session refreshes; an unknown token is
rejected with the ledger unchanged. -/
theorem refresh_success_iff_live_session_instance :
    (∃ u, (refresh dbSessions hashW (some "T1") 500 "T2" "s2").1 =
      RefreshResponse.refreshed u) ∧
      (refresh dbSessions hashW (some "TX") 500 "T2" "s2").2 = dbSessions :=
  ⟨(refresh_success_iff_live_session dbSessions hashW (some "T1") 500 "T2" "s2"
      (by decide)).1.mpr ⟨"T1", rfl, sessionLive, by decide, by decide, rfl, by decide⟩,
   (refresh_success_iff_live_session dbSessions hashW (some "TX") 500 "T2" "s2"
      (by decide)).2 (by decide)⟩

/-- Witness for C3 on the one-session fixture: after rotating T1 to T2,
T1 is rejected and T2 succeeds. -/
theorem refresh_rotation_one_shot_instance :
    (refresh (runRefreshes hashW (refreshStep hashW dbSessions ⟨"T1", 500, "T2", "s2"⟩) [])
        hashW (some "T1") 600 "T9" "s9").1 = RefreshResponse.unauthorized ∧
      (∃ u, (refresh (refreshStep hashW dbSessions ⟨"T1", 500, "T2", "s2"⟩) hashW
          (some "T2") 600 "T3" "s3").1 = RefreshResponse.refreshed u) :=
  ⟨(refresh_rotation_one_shot dbSessions hashW "T1" "T2" 500 "s2" (by decide) (by decide)
      (by decide) ⟨"u1", by decide⟩).1 [] (by simp) 600 "T9" "s9",
   (refresh_rotation_one_shot dbSessions hashW "T1" "T2" 500 "s2" (by decide) (by decide)
      (by decide) ⟨"u1", by decide⟩).2.1 600 "T3" "s3" (by norm_num [REFRESH_EXPIRES_MS])⟩

/-! ## C8 — signup effects -/

/-- C8: signup rejects a duplicate email unchanged; otherwise it creates
the user, resolves the CUSTOMER workspace for the email's domain
(creating it when absent), grants the new user a MEMBER membership
there, grants an ADMIN membership in the SUPPORT_OPS workspace exactly
when the email's domain is on the configured allow-list, and responds
201 with the new user id. Assumes fresh row ids and the data-model
invariant that only CUSTOMER workspaces carry a domain. -/
theorem signup_effects :
    ∀ (db : DB) (domains email password : String) (hashPw : String → String)
      (newUserId newWorkspaceId newSessionId tokenHash : String) (now : Nat),
      ((∃ u ∈ db.users, u.email = email) →
        signup db domains email password hashPw newUserId newWorkspaceId newSessionId
          tokenHash now = (SignupResponse.emailTaken, db)) ∧
      (∀ domain, db.users.find? (fun u => u.email == email) = none →
        parseEmailDomain email = some domain →
        (∀ m ∈ db.members, m.userId ≠ newUserId) →
        (∀ w ∈ db.workspaces, w.domain = some domain → w.kind = WorkspaceKind.CUSTOMER) →
        (signup db domains email password hashPw newUserId newWorkspaceId newSessionId
            tokenHash now).1 = SignupResponse.signedUp newUserId ∧
        (∃ u ∈ (signup db domains email password hashPw newUserId newWorkspaceId
            newSessionId tokenHash now).2.users, u.id = newUserId ∧ u.email = email) ∧
        (∃ w, ((signup db domains email password hashPw newUserId newWorkspaceId
              newSessionId tokenHash now).2.workspaces.find?
            (fun w => w.domain == some domain)) = some w ∧
          w.kind = WorkspaceKind.CUSTOMER ∧
          ({ workspaceId := w.id, userId := newUserId
             role := WorkspaceRole.MEMBER } : WorkspaceMember) ∈
            (signup db domains email password hashPw newUserId newWorkspaceId
              newSessionId tokenHash now).2.members) ∧
        (∀ ops, db.workspaces.find? (fun w => w.kind == WorkspaceKind.SUPPORT_OPS) =
            some ops →
          (({ workspaceId := ops.id, userId := newUserId
              role := WorkspaceRole.ADMIN } : WorkspaceMember) ∈
              (signup db domains email password hashPw newUserId newWorkspaceId
                newSessionId tokenHash now).2.members ↔
            isSupportAgentDomain domains email = true))) := by
  intro db domains email password hashPw newUserId newWorkspaceId newSessionId tokenHash now
  constructor
  · rintro ⟨u, hu, he⟩
    unfold signup
    cases hf : db.users.find? (fun u => u.email == email) with
    | none =>
      have := List.find?_eq_none.mp hf u hu
      simp [he] at this
    | some x => rfl
  · intro domain hnone hdom hfreshm hwkind
    refine ⟨?_, ?_, ?_, ?_⟩
    · simp [signup, hnone, hdom]
    · by_cases hag : isSupportAgentDomain domains email = true <;>
        cases hwf : db.workspaces.find? (fun w => w.domain == some domain) <;>
          cases hops : db.workspaces.find? (fun w => w.kind == WorkspaceKind.SUPPORT_OPS) <;>
            simp [signup, hnone, hdom, hag, hwf, hops] <;>
              try exact ⟨_, Or.inr rfl, rfl, rfl⟩
    · by_cases hag : isSupportAgentDomain domains email = true <;>
        cases hwf : db.workspaces.find? (fun w => w.domain == some domain) <;>
          cases hops : db.workspaces.find? (fun w => w.kind == WorkspaceKind.SUPPORT_OPS) <;>
            simp [signup, hnone, hdom, hag, hwf, hops, List.find?_append]
      all_goals exact hwkind _ (List.mem_of_find?_eq_some hwf) (by simpa using List.find?_some hwf)
    · intro ops hops
      by_cases hag : isSupportAgentDomain domains email = true <;>
        cases hwf : db.workspaces.find? (fun w => w.domain == some domain) <;>
          simp [signup, hnone, hdom, hag, hwf, hops, List.find?_append]
      all_goals intro hmem
      all_goals exact absurd rfl (hfreshm _ hmem)


/-- Witness for C8: `dave@acme.com` with `acme.com` on the allow-list
signs up into the fixture, lands in the existing CUSTOMER workspace and
receives the SUPPORT_OPS ADMIN grant. -/
theorem signup_effects_instance :
    (signup dbFix "support.io,acme.com" "dave@acme.com" "pw" hashW
        "u9" "w9" "s9" "h9" 777).1 = SignupResponse.signedUp "u9" ∧
      (({ workspaceId := "wOps", userId := "u9"
          role := WorkspaceRole.ADMIN } : WorkspaceMember) ∈
          (signup dbFix "support.io,acme.com" "dave@acme.com" "pw" hashW
            "u9" "w9" "s9" "h9" 777).2.members ↔
        isSupportAgentDomain "support.io,acme.com" "dave@acme.com" = true) :=
  ⟨((signup_effects dbFix "support.io,acme.com" "dave@acme.com" "pw" hashW
      "u9" "w9" "s9" "h9" 777).2 "acme.com" (by decide) (by decide) (by decide)
      (by decide)).1,
   ((signup_effects dbFix "support.io,acme.com" "dave@acme.com" "pw" hashW
      "u9" "w9" "s9" "h9" 777).2 "acme.com" (by decide) (by decide) (by decide)
      (by decide)).2.2.2 wsOps (by decide)⟩

/-! ## C9 — where the JWT secret requirement is enforced -/

/-- Counterexample to C9: with `JWT_ACCESS_SECRET` absent, the module
initialization of `index.ts` still succeeds — no startup code reads or
validates the secret — while the very first `createAccessToken` call
throws the configuration error; so the failure is per call, not a hard
startup failure. -/
theorem startup_ignores_missing_jwt_secret :
    startup { jwtAccessSecret := none, port := none, webOrigin := none, nodeEnv := none } =
      Except.ok { port := 4000, webOrigin := "http://localhost:3000" } ∧
      createAccessToken
          { jwtAccessSecret := none, port := none, webOrigin := none, nodeEnv := none } "u1" =
        Except.error "JWT_ACCESS_SECRET must be set and at least 16 chars" :=
  ⟨rfl, rfl⟩

/-- C9 (amended): the 16-character minimum on `JWT_ACCESS_SECRET` is
enforced lazily inside `getSecret` at every token signing: startup always
succeeds whatever the secret, and `createAccessToken` succeeds iff the
secret is present with length at least 16, otherwise raising the
configuration error on that call. -/
theorem jwt_secret_checked_per_call :
    ∀ (env : Env) (userId : String),
      (∃ c, startup env = Except.ok c) ∧
      ((∃ t, createAccessToken env userId = Except.ok t) ↔
        (∃ s, env.jwtAccessSecret = some s ∧ 16 ≤ s.length)) ∧
      ((env.jwtAccessSecret = none ∨
          (∃ s, env.jwtAccessSecret = some s ∧ s.length < 16)) →
        createAccessToken env userId =
          Except.error "JWT_ACCESS_SECRET must be set and at least 16 chars") := by
  intro env userId
  refine ⟨⟨_, rfl⟩, ?_, ?_⟩
  · cases hs : env.jwtAccessSecret with
    | none =>
      simp [createAccessToken, getSecret, hs, Except.map]
    | some s =>
      by_cases hl : s.length < 16 <;>
        simp [createAccessToken, getSecret, hs, hl, Except.map] <;> omega
  · rintro (hs | ⟨s, hs, hl⟩)
    · simp [createAccessToken, getSecret, hs, Except.map]
    · simp [createAccessToken, getSecret, hs, hl, Except.map]

/-- Witness for the amended C9: a 16-character secret signs a token. -/
theorem jwt_secret_checked_per_call_instance :
    ∃ t, createAccessToken
        { jwtAccessSecret := some "0123456789abcdef", port := none
          webOrigin := none, nodeEnv := none } "u1" = Except.ok t :=
  ((jwt_secret_checked_per_call
      { jwtAccessSecret := some "0123456789abcdef", port := none
        webOrigin := none, nodeEnv := none } "u1").2.1).mpr
    ⟨"0123456789abcdef", rfl, by decide⟩


theorem charVal_digitChar {d : Nat} (h : d < 10) : charVal (Nat.digitChar d) = d := by
  interval_cases d <;> rfl

theorem isDigit_digitChar {d : Nat} (h : d < 10) : (Nat.digitChar d).isDigit = true := by
  interval_cases d <;> rfl

/-- The accumulator step of decimal evaluation. -/
theorem digitsGo_digits : ∀ (fuel n : Nat), n ≤ fuel →
    ∀ c ∈ digitsGo fuel n, c.isDigit = true := by
  intro fuel
  induction fuel with
  | zero => intro n hn c hc; simp [digitsGo] at hc
  | succ fuel ih =>
    intro n hn c hc
    unfold digitsGo at hc
    by_cases h0 : n = 0
    · simp [h0] at hc
    · rw [if_neg h0] at hc
      rcases List.mem_append.mp hc with hin | hin
      · exact ih (n / 10) (by omega) c hin
      · have := List.mem_singleton.mp hin
        subst this
        exact isDigit_digitChar (by omega)

theorem digitsGo_foldl : ∀ (fuel n : Nat), n ≤ fuel → ∀ acc,
    List.foldl digitStep acc (digitsGo fuel n) =
      acc * 10 ^ (digitsGo fuel n).length + n := by
  intro fuel
  induction fuel with
  | zero =>
    intro n hn acc
    have h0 : n = 0 := by omega
    simp [h0, digitsGo]
  | succ fuel ih =>
    intro n hn acc
    unfold digitsGo
    by_cases h0 : n = 0
    · simp [h0]
    · rw [if_neg h0]
      rw [List.foldl_append]
      rw [ih (n / 10) (by omega) acc]
      simp only [List.foldl, digitStep, List.length_append, List.length_singleton]
      rw [charVal_digitChar (by omega)]
      rw [pow_succ]
      have := Nat.div_add_mod n 10
      ring_nf
      omega

theorem digitsGo_length_le : ∀ (fuel n k : Nat), n ≤ fuel → n < 10 ^ k →
    (digitsGo fuel n).length ≤ k := by
  intro fuel
  induction fuel with
  | zero => intro n k hn hk; simp [digitsGo]
  | succ fuel ih =>
    intro n k hn hk
    unfold digitsGo
    by_cases h0 : n = 0
    · simp [h0]
    · rw [if_neg h0]
      have hk1 : 1 ≤ k := by
        by_contra hc
        have : k = 0 := by omega
        subst this
        simp at hk
        omega
      rw [List.length_append, List.length_singleton]
      have : n / 10 < 10 ^ (k - 1) := by
        have h10 : 10 ^ k = 10 ^ (k - 1) * 10 := by
          rw [← pow_succ]
          congr 1
          omega
        rw [h10] at hk
        omega
      have := ih (n / 10) (k - 1) (by omega) this
      omega

theorem natDigitsBE_digits (n : Nat) : ∀ c ∈ natDigitsBE n, c.isDigit = true := by
  unfold natDigitsBE
  by_cases h0 : n = 0
  · simp [h0]
  · rw [if_neg h0]
    exact digitsGo_digits n n le_rfl

theorem natDigitsBE_foldl (n : Nat) (acc : Nat) :
    List.foldl digitStep acc (natDigitsBE n) =
      acc * 10 ^ (natDigitsBE n).length + n := by
  unfold natDigitsBE
  by_cases h0 : n = 0
  · simp [h0, digitStep, charVal]
  · rw [if_neg h0]
    exact digitsGo_foldl n n le_rfl acc

theorem natDigitsBE_length_le {n k : Nat} (hk : 0 < k) (h : n < 10 ^ k) :
    (natDigitsBE n).length ≤ k := by
  unfold natDigitsBE
  by_cases h0 : n = 0
  · simp [h0]
    omega
  · rw [if_neg h0]
    exact digitsGo_length_le n n k le_rfl h

theorem padChars_length {k n : Nat} (hk : 0 < k) (h : n < 10 ^ k) :
    (padChars k n).length = k := by
  unfold padChars
  rw [List.length_append, List.length_replicate]
  have := natDigitsBE_length_le hk h
  omega

theorem padChars_digits (k n : Nat) : ∀ c ∈ padChars k n, c.isDigit = true := by
  intro c hc
  rcases List.mem_append.mp hc with hin | hin
  · have := List.eq_of_mem_replicate hin
    subst this
    rfl
  · exact natDigitsBE_digits n c hin

theorem foldl_replicate_zero (z : Nat) (acc : Nat) :
    List.foldl digitStep acc (List.replicate z '0') = acc * 10 ^ z := by
  induction z generalizing acc with
  | zero => simp
  | succ z ih =>
    rw [List.replicate_succ, List.foldl_cons, ih]
    have : digitStep acc '0' = acc * 10 := by rfl
    rw [this]
    ring

theorem padChars_foldl {k n : Nat} (hk : 0 < k) (h : n < 10 ^ k) (acc : Nat) :
    List.foldl digitStep acc (padChars k n) = acc * 10 ^ k + n := by
  unfold padChars
  rw [List.foldl_append, foldl_replicate_zero, natDigitsBE_foldl]
  rw [mul_assoc, ← pow_add]
  have hlen := natDigitsBE_length_le hk h
  have he : k - (natDigitsBE n).length + (natDigitsBE n).length = k := by omega
  rw [he]


theorem takeDigitsGo_exact : ∀ (ds : List Char) (rest : List Char) (acc : Nat),
    (∀ c ∈ ds, c.isDigit = true) →
    takeDigitsGo ds.length acc (ds ++ rest) = some (List.foldl digitStep acc ds, rest) := by
  intro ds
  induction ds with
  | nil => intro rest acc _; rfl
  | cons c ds ih =>
    intro rest acc hd
    have hc : c.isDigit = true := hd c (List.mem_cons_self _ _)
    simp only [List.length_cons, List.cons_append, takeDigitsGo, hc, if_pos]
    exact ih rest (acc * 10 + charVal c) (fun x hx => hd x (List.mem_cons_of_mem _ hx))

theorem takeDigits_pad {k n : Nat} (hk : 0 < k) (h : n < 10 ^ k) (rest : List Char) :
    takeDigits k (padChars k n ++ rest) = some (n, rest) := by
  unfold takeDigits
  have hlen := padChars_length hk h
  have := takeDigitsGo_exact (padChars k n) rest 0 (padChars_digits k n)
  rw [hlen] at this
  rw [this, padChars_foldl hk h 0]
  simp

theorem expectChar_cons_self (c : Char) (l : List Char) :
    expectChar c (c :: l) = some l := by
  simp [expectChar]

theorem daysInYear_eq (y : Nat) : daysInYear y = 337 + febDays y := by
  unfold daysInYear febDays
  by_cases h : isLeapYear y = true <;> simp [h]

theorem daysInYear_ge (y : Nat) : 365 ≤ daysInYear y := by
  unfold daysInYear
  by_cases h : isLeapYear y = true <;> simp [h]

theorem daysInYear_le (y : Nat) : daysInYear y ≤ 366 := by
  unfold daysInYear
  by_cases h : isLeapYear y = true <;> simp [h]

theorem daysToYear_succ {y : Nat} (h : 1970 ≤ y) :
    daysToYear (y + 1) = daysToYear y + daysInYear y := by
  unfold daysToYear
  have hy : y + 1 - 1970 = (y - 1970) + 1 := by omega
  rw [hy, List.range_succ, List.map_append, List.sum_append, List.map_singleton,
    List.sum_singleton]
  have harg : 1970 + (y - 1970) = y := by omega
  rw [harg]

theorem daysToYear_lower : ∀ (k : Nat), 365 * k ≤ daysToYear (1970 + k) := by
  intro k
  induction k with
  | zero => simp
  | succ k ih =>
    have : 1970 + (k + 1) = (1970 + k) + 1 := by omega
    rw [this, daysToYear_succ (by omega)]
    have := daysInYear_ge (1970 + k)
    omega

theorem yearGo_spec : ∀ (fuel days y : Nat), days ≤ fuel → 1970 ≤ y →
    1970 ≤ (yearGo fuel days y).1 ∧
    daysToYear (yearGo fuel days y).1 + (yearGo fuel days y).2 = daysToYear y + days ∧
    (yearGo fuel days y).2 < daysInYear (yearGo fuel days y).1 ∧
    (yearGo fuel days y).1 ≤ y + days := by
  intro fuel
  induction fuel with
  | zero =>
    intro days y hd hy
    have h0 : days = 0 := by omega
    subst h0
    have hq : yearGo 0 0 y = (y, 0) := rfl
    simp only [hq]
    have := daysInYear_ge y
    exact ⟨hy, by simp, by omega, by omega⟩
  | succ fuel ih =>
    intro days y hd hy
    unfold yearGo
    by_cases h : days < daysInYear y
    · rw [if_pos h]
      exact ⟨hy, rfl, h, by omega⟩
    · rw [if_neg h]
      have hge := daysInYear_ge y
      obtain ⟨h1, h2, h3, h4⟩ := ih (days - daysInYear y) (y + 1) (by omega) (by omega)
      refine ⟨h1, ?_, h3, by omega⟩
      rw [h2, daysToYear_succ hy]
      omega

theorem monthDaysBefore_succ (y : Nat) : ∀ m, 1 ≤ m → m ≤ 11 →
    monthDaysBefore y (m + 1) = monthDaysBefore y m + daysInMonth y m := by
  intro m h1 h2
  interval_cases m <;> simp [monthDaysBefore, daysInMonth] <;> omega

theorem monthGo_spec (y : Nat) : ∀ (fuel m rem : Nat), m + fuel = 12 → 1 ≤ m →
    monthDaysBefore y m + rem < daysInYear y →
    1 ≤ (monthGo y fuel m rem).1 ∧ (monthGo y fuel m rem).1 ≤ 12 ∧
    monthDaysBefore y (monthGo y fuel m rem).1 + (monthGo y fuel m rem).2 =
      monthDaysBefore y m + rem ∧
    (monthGo y fuel m rem).2 < daysInMonth y (monthGo y fuel m rem).1 := by
  intro fuel
  induction fuel with
  | zero =>
    intro m rem hm h1 hb
    have hm12 : m = 12 := by omega
    subst hm12
    have hq : monthGo y 0 12 rem = (12, rem) := rfl
    simp only [hq]
    have hde := daysInYear_eq y
    have hmdb : monthDaysBefore y 12 = 306 + febDays y := rfl
    have hdim : daysInMonth y 12 = 31 := rfl
    refine ⟨by omega, by omega, by trivial, by omega⟩
  | succ fuel ih =>
    intro m rem hm h1 hb
    unfold monthGo
    by_cases h : rem < daysInMonth y m
    · rw [if_pos h]
      exact ⟨h1, by omega, rfl, h⟩
    · rw [if_neg h]
      have hsucc := monthDaysBefore_succ y m h1 (by omega)
      obtain ⟨g1, g2, g3, g4⟩ := ih (m + 1) (rem - daysInMonth y m) (by omega) (by omega)
        (by omega)
      exact ⟨g1, g2, by omega, g4⟩

theorem monthSplit_spec (y rem : Nat) (h : rem < daysInYear y) :
    1 ≤ (monthSplit y rem).1 ∧ (monthSplit y rem).1 ≤ 12 ∧
    monthDaysBefore y (monthSplit y rem).1 + (monthSplit y rem).2 = rem ∧
    (monthSplit y rem).2 < daysInMonth y (monthSplit y rem).1 := by
  have := monthGo_spec y 11 1 rem (by omega) le_rfl (by simpa [monthDaysBefore] using h)
  simpa [monthSplit, monthDaysBefore] using this


theorem daysInMonth_le (y m : Nat) : daysInMonth y m ≤ 31 := by
  have hf : febDays y ≤ 29 := by
    unfold febDays
    by_cases hl : isLeapYear y = true <;> simp [hl]
  unfold daysInMonth
  split <;> omega

theorem yearMatch_not_plus {α : Type} (f : List Char → α) (g : List Char → α)
    (c : Char) (l : List Char) (hc : c ≠ '+') :
    (match c :: l with
     | '+' :: rest => f rest
     | cs => g cs) = g (c :: l) := by
  split
  · rename_i heq
    rw [List.cons.injEq] at heq
    exact absurd heq.1 hc
  · rfl

theorem padChars_nonempty {k n : Nat} (hk : 0 < k) (h : n < 10 ^ k) :
    ∃ c l, padChars k n = c :: l ∧ c.isDigit = true := by
  cases hpc : padChars k n with
  | nil =>
    have := padChars_length hk h
    rw [hpc] at this
    simp at this
    omega
  | cons c l =>
    refine ⟨c, l, rfl, ?_⟩
    exact padChars_digits k n c (hpc ▸ List.mem_cons_self c l)

theorem daysToYear_1970 : daysToYear 1970 = 0 := rfl

theorem parseYearStep_not_plus {c : Char} (l : List Char) (hc : c ≠ '+') :
    parseYearStep (c :: l) = takeDigits 4 (c :: l) := by
  unfold parseYearStep
  split
  · rename_i heq
    rw [List.cons.injEq] at heq
    exact absurd heq.1 hc
  · rfl

theorem parseYearStep_yearChars {Y : Nat} (h6 : Y < 1000000) (rest : List Char) :
    parseYearStep (yearChars Y ++ rest) = some (Y, rest) := by
  have hp4 : (10 : Nat) ^ 4 = 10000 := by norm_num
  have hp6 : (10 : Nat) ^ 6 = 1000000 := by norm_num
  unfold yearChars
  by_cases h4 : Y < 10000
  · rw [if_pos h4]
    have hY4 : Y < 10 ^ 4 := by rw [hp4]; omega
    obtain ⟨c, l, hpc, hdig⟩ := padChars_nonempty (show (0 : Nat) < 4 by norm_num) hY4
    have hcne : c ≠ '+' := by
      intro hce
      rw [hce] at hdig
      exact absurd hdig (by decide)
    rw [hpc, List.cons_append, parseYearStep_not_plus _ hcne, ← List.cons_append, ← hpc]
    exact takeDigits_pad (by norm_num) hY4 rest
  · rw [if_neg h4, List.cons_append]
    have hY6 : Y < 10 ^ 6 := by rw [hp6]; omega
    have hred : parseYearStep ('+' :: (padChars 6 Y ++ rest)) =
        takeDigits 6 (padChars 6 Y ++ rest) := rfl
    rw [hred]
    exact takeDigits_pad (by norm_num) hY6 rest

theorem parseISO_toISOChars (ms : Nat) (hms : ms ≤ MAX_JS_DATE) :
    parseISO (toISOChars ms) = some ms := by
  have hmax : MAX_JS_DATE = 8640000000000000 := rfl
  rw [hmax] at hms
  obtain ⟨hY1970, hysum, hdoy, hYle⟩ :=
    yearGo_spec (ms / 86400000) (ms / 86400000) 1970 le_rfl le_rfl
  rw [daysToYear_1970] at hysum
  set Y := (yearGo (ms / 86400000) (ms / 86400000) 1970).1 with hYdef
  set doy := (yearGo (ms / 86400000) (ms / 86400000) 1970).2 with hdoydef
  obtain ⟨hMO1, hMO12, hmsum, hDMlt⟩ := monthSplit_spec Y doy hdoy
  set MO := (monthSplit Y doy).1 with hMOdef
  set DM := (monthSplit Y doy).2 with hDMdef
  have hiso : toISOChars ms =
      yearChars Y ++ '-' :: padChars 2 MO ++ '-' :: padChars 2 (DM + 1) ++
      'T' :: padChars 2 (ms % 86400000 / 3600000) ++
      ':' :: padChars 2 (ms % 86400000 % 3600000 / 60000) ++
      ':' :: padChars 2 (ms % 86400000 % 60000 / 1000) ++
      '.' :: padChars 3 (ms % 1000) ++ ['Z'] := rfl
  have hlow := daysToYear_lower (Y - 1970)
  have harg : 1970 + (Y - 1970) = Y := by omega
  rw [harg] at hlow
  have hY6 : Y < 1000000 := by omega
  have hdm31 := daysInMonth_le Y MO
  have hp2 : (10 : Nat) ^ 2 = 100 := by norm_num
  have hp3 : (10 : Nat) ^ 3 = 1000 := by norm_num
  have hstep := parseYearStep_yearChars hY6
  have htMO := takeDigits_pad (show (0 : Nat) < 2 by norm_num)
    (show MO < 10 ^ 2 by rw [hp2]; omega)
  have htDM := takeDigits_pad (show (0 : Nat) < 2 by norm_num)
    (show DM + 1 < 10 ^ 2 by rw [hp2]; omega)
  have hthh := takeDigits_pad (show (0 : Nat) < 2 by norm_num)
    (show ms % 86400000 / 3600000 < 10 ^ 2 by rw [hp2]; omega)
  have htmi := takeDigits_pad (show (0 : Nat) < 2 by norm_num)
    (show ms % 86400000 % 3600000 / 60000 < 10 ^ 2 by rw [hp2]; omega)
  have htss := takeDigits_pad (show (0 : Nat) < 2 by norm_num)
    (show ms % 86400000 % 60000 / 1000 < 10 ^ 2 by rw [hp2]; omega)
  have htmil := takeDigits_pad (show (0 : Nat) < 3 by norm_num)
    (show ms % 1000 < 10 ^ 3 by rw [hp3]; omega)
  rw [hiso]
  simp only [parseISO, List.append_assoc, List.cons_append, hstep, expectChar_cons_self,
    htMO, htDM, hthh, htmi, htss, htmil]
  have hcond : True ∧ 1970 ≤ Y ∧ 1 ≤ MO ∧ MO ≤ 12 ∧ 1 ≤ DM + 1 ∧
      DM + 1 ≤ daysInMonth Y MO ∧ ms % 86400000 / 3600000 < 24 ∧
      ms % 86400000 % 3600000 / 60000 < 60 ∧ ms % 86400000 % 60000 / 1000 < 60 :=
    ⟨trivial, hY1970, hMO1, hMO12, by omega, by omega, by omega, by omega, by omega⟩
  rw [if_pos hcond]
  have htot : (daysToYear Y + monthDaysBefore Y MO + (DM + 1 - 1)) * 86400000 +
      ms % 86400000 / 3600000 * 3600000 + ms % 86400000 % 3600000 / 60000 * 60000 +
      ms % 86400000 % 60000 / 1000 * 1000 + ms % 1000 = ms := by omega
  rw [htot, if_pos (hmax ▸ hms)]

theorem pipe_not_mem_padChars (k n : Nat) : '|' ∉ padChars k n := by
  intro hmem
  exact absurd (padChars_digits k n '|' hmem) (by decide)

theorem pipe_not_mem_yearChars (y : Nat) : '|' ∉ yearChars y := by
  intro hmem
  unfold yearChars at hmem
  by_cases h : y < 10000
  · rw [if_pos h] at hmem
    exact pipe_not_mem_padChars _ _ hmem
  · rw [if_neg h] at hmem
    rcases List.mem_cons.mp hmem with h1 | h1
    · exact absurd h1 (by decide)
    · exact pipe_not_mem_padChars _ _ h1

theorem pipe_not_mem_toISOChars (ms : Nat) : '|' ∉ toISOChars ms := by
  have hiso : toISOChars ms =
      yearChars (yearGo (ms / 86400000) (ms / 86400000) 1970).1 ++
      '-' :: padChars 2 (monthSplit (yearGo (ms / 86400000) (ms / 86400000) 1970).1
        (yearGo (ms / 86400000) (ms / 86400000) 1970).2).1 ++
      '-' :: padChars 2 ((monthSplit (yearGo (ms / 86400000) (ms / 86400000) 1970).1
        (yearGo (ms / 86400000) (ms / 86400000) 1970).2).2 + 1) ++
      'T' :: padChars 2 (ms % 86400000 / 3600000) ++
      ':' :: padChars 2 (ms % 86400000 % 3600000 / 60000) ++
      ':' :: padChars 2 (ms % 86400000 % 60000 / 1000) ++
      '.' :: padChars 3 (ms % 1000) ++ ['Z'] := rfl
  rw [hiso]
  intro hmem
  simp only [List.mem_append, List.mem_cons, List.mem_singleton,
    List.not_mem_nil, or_false] at hmem
  rcases hmem with ((((((h | (h | h)) | (h | h)) | (h | h)) | (h | h)) | (h | h)) |
    (h | h)) | h
  all_goals first
  | exact pipe_not_mem_yearChars _ h
  | exact pipe_not_mem_padChars _ _ h
  | exact absurd h (by decide)

theorem splitChar_ne_nil (sep : Char) : ∀ (b : List Char), splitChar sep b ≠ [] := by
  intro b
  cases b with
  | nil => simp [splitChar]
  | cons c rest =>
    simp only [splitChar]
    cases hsb : splitChar sep rest with
    | nil => simp
    | cons h t => by_cases hc : c = sep <;> simp [hc]

theorem splitChar_no_sep (sep : Char) : ∀ (b : List Char), sep ∉ b →
    splitChar sep b = [b] := by
  intro b
  induction b with
  | nil => intro h; rfl
  | cons c rest ih =>
    intro hns
    have hc : c ≠ sep := fun h => hns (h ▸ List.mem_cons_self _ _)
    have hr : sep ∉ rest := fun h => hns (List.mem_cons_of_mem _ h)
    simp only [splitChar, ih hr]
    rw [if_neg hc]

theorem splitChar_append (sep : Char) : ∀ (a b : List Char), sep ∉ a →
    splitChar sep (a ++ sep :: b) = a :: splitChar sep b := by
  intro a
  induction a with
  | nil =>
    intro b h
    simp only [List.nil_append, splitChar]
    cases hsb : splitChar sep b with
    | nil => exact absurd hsb (splitChar_ne_nil sep b)
    | cons h t => simp
  | cons c rest ih =>
    intro b hns
    have hc : c ≠ sep := fun h => hns (h ▸ List.mem_cons_self _ _)
    have hr : sep ∉ rest := fun h => hns (List.mem_cons_of_mem _ h)
    simp only [List.cons_append, List.append_eq, splitChar, ih b hr]
    rw [if_neg hc]

/-- C10: for every valid JS date value `d` and every non-empty id containing
no `|`, `parseCursor (encodeCursor d id)` recovers exactly `d` (millisecond
precision) and `id`. -/
theorem cursor_roundtrip (d : Nat) (hd : d ≤ MAX_JS_DATE) (id : String)
    (hid : id ≠ "") (hpipe : '|' ∉ id.data) :
    parseCursor (encodeCursor d id) = some { date := d, id := id } := by
  have hdata : (encodeCursor d id).data = toISOChars d ++ '|' :: id.data := by
    simp [encodeCursor, toISOString]
  have hne : (encodeCursor d id == "") = false := by
    rw [beq_eq_false_iff_ne]
    intro he
    have h0 : (encodeCursor d id).data = ([] : List Char) := by rw [he]
    rw [hdata] at h0
    simp at h0
  have hidne : id.data ≠ [] := fun h => hid (String.ext h)
  have hsplit : splitChar '|' (toISOChars d ++ '|' :: id.data) =
      [toISOChars d, id.data] := by
    rw [splitChar_append '|' _ _ (pipe_not_mem_toISOChars d),
      splitChar_no_sep '|' _ hpipe]
  have hemp : id.data.isEmpty = false := by
    cases hc : id.data with
    | nil => exact absurd hc hidne
    | cons c rest => rfl
  have hcont : ((toISOChars d ++ '|' :: id.data).contains '|') = true :=
    List.elem_eq_true_of_mem (by simp)
  simp only [parseCursor, hne, hcont, hdata, hsplit, parseISO_toISOChars d hd, hemp,
    Bool.not_true, Bool.false_eq_true, if_false, ite_false, Bool.not_false, if_true,
    ite_true]

theorem cursor_roundtrip_instance :
    1700000000123 ≤ MAX_JS_DATE ∧ ("abc" : String) ≠ "" ∧
    '|' ∉ ("abc" : String).data ∧
    parseCursor (encodeCursor 1700000000123 "abc") =
      some { date := 1700000000123, id := "abc" } :=
  ⟨by decide, by decide, by decide,
    cursor_roundtrip 1700000000123 (by decide) "abc" (by decide) (by decide)⟩

end HelpNest





